import Mathlib

/-!
Verification of the vibeday itinerary-construction core.

The TypeScript source is embedded shallowly: JavaScript numbers are
modelled as exact rationals (`ℚ`), integers produced by `Math.round` /
`Math.floor` as `ℤ`, records with fixed keys as structures, and
`Record<string, T>` lookups as functions.  The one part of the source
that cannot be embedded exactly is `calculateDistance` (the haversine
formula), which evaluates transcendental functions (`sin`, `cos`,
`atan2`, `sqrt`); every definition that calls it is therefore
parametrised by an abstract distance function
`dist : Location → Location → ℚ`.  No theorem below uses any property
of `dist` beyond, occasionally, pointwise nonnegativity — which the
real haversine satisfies, since it returns `R * c` with
`c = 2·atan2(√a, √(1−a)) ∈ [0, π]`.
-/

namespace Vibeday

/-- Geographic location (types/state.ts `LocationSchema`). -/
structure Location where
  lat : ℚ
  lng : ℚ
deriving DecidableEq, Repr

/-- A venue record (types/state.ts `VenueSchema`).  `openingHours` is never
read by the core and is omitted. -/
structure Venue where
  name : String
  placeId : String
  mapsUrl : String
  address : String
  location : Location
  priceLevel : Option ℕ
  rating : Option ℚ
  reviewCount : Option ℕ
  category : String
deriving DecidableEq, Repr

/-- User preferences (types/state.ts `PreferencesSchema`). -/
structure Preferences where
  vibe : List String
  dietary : List String
  alcoholOk : Bool
  walking : String
  indoorsPreferred : Bool
  likes : List String
  familyFriendly : Bool
deriving DecidableEq, Repr

/-- Budget (types/state.ts `BudgetSchema`): positive amount, ISO currency. -/
structure Budget where
  amount : ℚ
  currency : String
deriving DecidableEq, Repr

/-- The five component scores of a venue (ranking.ts `ScoredVenue.scores`,
also reused for the `WEIGHTS` constant which has the same shape). -/
structure ComponentScores where
  rating : ℚ
  proximity : ℚ
  priceMatch : ℚ
  preferenceMatch : ℚ
  reviewCount : ℚ
deriving DecidableEq, Repr

/-- Scoring weights (ranking.ts `WEIGHTS`). -/
def WEIGHTS : ComponentScores :=
  { rating := 0.30
    proximity := 0.25
    priceMatch := 0.20
    preferenceMatch := 0.15
    reviewCount := 0.10 }

/-- Price level to EUR-per-person band (ranking.ts `PRICE_LEVEL_EUR`);
`none` models a lookup miss on the JS record. -/
def PRICE_LEVEL_EUR : ℕ → Option (ℚ × ℚ)
  | 0 => some (0, 10)
  | 1 => some (10, 25)
  | 2 => some (25, 50)
  | 3 => some (50, 100)
  | 4 => some (100, 200)
  | _ => none

/-- Arithmetic-mean centroid of a venue list (ranking.ts `calculateCentroid`). -/
def calculateCentroid (venues : List Venue) : Location :=
  if venues.length = 0 then ⟨0, 0⟩
  else
    let sum := venues.foldl
      (fun acc v => Location.mk (acc.lat + v.location.lat) (acc.lng + v.location.lng))
      ⟨0, 0⟩
    ⟨sum.lat / venues.length, sum.lng / venues.length⟩

/-- Rating component (ranking.ts `scoreRating`).  The JS guard
`!venue.rating` is truthy both when the field is absent and when the
rating is `0` (zero is falsy), so both cases return the neutral `0.5`. -/
def scoreRating (venue : Venue) : ℚ :=
  match venue.rating with
  | none => 0.5
  | some r => if r = 0 then 0.5 else max 0 (min 1 ((r - 3) / 2))

/-- Proximity component (ranking.ts `scoreProximity`), over the abstract
distance function. -/
def scoreProximity (dist : Location → Location → ℚ) (venue : Venue)
    (reference : Location) : ℚ :=
  let distance := dist venue.location reference
  if distance ≤ 500 then 1.0
  else if distance ≥ 5000 then 0.0
  else 1 - (distance - 500) / 4500

/-- Price-match component (ranking.ts `scorePriceMatch`). -/
def scorePriceMatch (venue : Venue) (targetBudgetPerPerson : ℚ) : ℚ :=
  match venue.priceLevel with
  | none => 0.5
  | some pl =>
    match PRICE_LEVEL_EUR pl with
    | none => 0.5
    | some (mn, mx) =>
      if targetBudgetPerPerson ≥ mn ∧ targetBudgetPerPerson ≤ mx then 1.0
      else if targetBudgetPerPerson < mn then
        max 0.1 (0.7 - (mn - targetBudgetPerPerson) / 50)
      else 0.8

/-- JavaScript `String.prototype.toLowerCase`, character by character
(the source only ever lowercases ASCII keyword/category/name text). -/
def lowerString (s : String) : String :=
  String.mk (s.toList.map Char.toLower)

/-- Whether `pat` occurs in `hay` starting at its head. -/
def matchesAt : List Char → List Char → Bool
  | [], _ => true
  | _ :: _, [] => false
  | c :: cs, d :: ds => c = d && matchesAt cs ds

/-- JavaScript `String.prototype.includes`: substring containment
(the empty pattern is contained in every string). -/
def jsIncludes (hay pat : String) : Bool :=
  go hay.toList
where
  go : List Char → Bool
    | [] => pat.toList.isEmpty
    | l@(_ :: rest) => matchesAt pat.toList l || go rest

/-- Vibe-keyword table (ranking.ts `vibeKeywords` inside
`scorePreferenceMatch`); a missing key yields `[]` as `?? []` does. -/
def vibeKeywords (vibe : String) : List String :=
  if vibe = "romantic" then ["intimate", "candlelit", "cozy", "wine", "french", "italian"]
  else if vibe = "adventurous" then ["escape", "adventure", "tour", "climb", "explore"]
  else if vibe = "relaxed" then ["lounge", "cafe", "garden", "terrace", "spa"]
  else if vibe = "fancy" then ["michelin", "fine dining", "premium", "gourmet", "luxur"]
  else if vibe = "playful" then ["game", "bowling", "arcade", "karaoke", "comedy"]
  else []

/-- Preference-match component (ranking.ts `scorePreferenceMatch`):
base 0.5, +0.15 per matching like, +0.10 per matching vibe keyword,
capped at 1.0. -/
def scorePreferenceMatch (venue : Venue) (preferences : Preferences) : ℚ :=
  let likes := preferences.likes.map lowerString
  let vibes := preferences.vibe.map lowerString
  let venueName := lowerString venue.name
  let venueCategory := lowerString venue.category
  let afterLikes := likes.foldl
    (fun sc like =>
      if jsIncludes venueName like || jsIncludes venueCategory like then sc + 0.15 else sc)
    0.5
  let afterVibes := vibes.foldl
    (fun sc vibe =>
      (vibeKeywords vibe).foldl
        (fun sc2 keyword => if jsIncludes venueName keyword then sc2 + 0.1 else sc2)
        sc)
    afterLikes
  min 1.0 afterVibes

/-- Review-count component (ranking.ts `scoreReviewCount`).  As with
`scoreRating`, the JS guard `!venue.reviewCount` also fires on a literal
count of `0`, which lands on the same `0.3` as the final else branch. -/
def scoreReviewCount (venue : Venue) : ℚ :=
  match venue.reviewCount with
  | none => 0.3
  | some n =>
    if n = 0 then 0.3
    else if n ≥ 500 then 1.0
    else if n ≥ 100 then 0.8
    else if n ≥ 50 then 0.6
    else if n ≥ 20 then 0.4
    else 0.3

/-- A venue with its composite and component scores (ranking.ts
`ScoredVenue`). -/
structure ScoredVenue where
  venue : Venue
  score : ℚ
  scores : ComponentScores
deriving DecidableEq, Repr

/-- Score one venue against a fixed reference point — the body of the
`venues.map` callback in ranking.ts `rankVenues`. -/
def scoreVenue (dist : Location → Location → ℚ) (reference : Location)
    (preferences : Preferences) (targetBudgetPerPerson : ℚ) (venue : Venue) :
    ScoredVenue :=
  let scores : ComponentScores :=
    { rating := scoreRating venue
      proximity := scoreProximity dist venue reference
      priceMatch := scorePriceMatch venue targetBudgetPerPerson
      preferenceMatch := scorePreferenceMatch venue preferences
      reviewCount := scoreReviewCount venue }
  let totalScore :=
    scores.rating * WEIGHTS.rating +
    scores.proximity * WEIGHTS.proximity +
    scores.priceMatch * WEIGHTS.priceMatch +
    scores.preferenceMatch * WEIGHTS.preferenceMatch +
    scores.reviewCount * WEIGHTS.reviewCount
  { venue := venue, score := totalScore, scores := scores }

/-- The comparator of ranking.ts `rankVenues` (`(a, b) => b.score - a.score`):
`a` sorts no later than `b` exactly when `b.score ≤ a.score`. -/
def scoreDescLE (a b : ScoredVenue) : Prop :=
  b.score ≤ a.score

instance : DecidableRel scoreDescLE :=
  fun a b => inferInstanceAs (Decidable (b.score ≤ a.score))

instance : IsTotal ScoredVenue scoreDescLE :=
  ⟨fun a b => le_total b.score a.score⟩

instance : IsTrans ScoredVenue scoreDescLE :=
  ⟨fun _ _ _ hab hbc => le_trans hbc hab⟩

/-- The scored-but-unsorted list (the `scored` local of ranking.ts
`rankVenues`): the input venues mapped through `scoreVenue` in order. -/
def scoredList (dist : Location → Location → ℚ) (venues : List Venue)
    (preferences : Preferences) (targetBudgetPerPerson : ℚ)
    (referenceLocation : Option Location) : List ScoredVenue :=
  let reference := referenceLocation.getD (calculateCentroid venues)
  venues.map (scoreVenue dist reference preferences targetBudgetPerPerson)

/-- ranking.ts `rankVenues`: score every venue, then sort descending by
composite score.  JavaScript `Array.prototype.sort` is a stable sort (the
stable sort induced by a total preorder is unique), so it is embedded as
the stable `insertionSort` with the comparator's order. -/
def rankVenues (dist : Location → Location → ℚ) (venues : List Venue)
    (preferences : Preferences) (targetBudgetPerPerson : ℚ)
    (referenceLocation : Option Location) : List ScoredVenue :=
  (scoredList dist venues preferences targetBudgetPerPerson referenceLocation).insertionSort
    scoreDescLE

/-- The inner absorption loop of ranking.ts `clusterByProximity`: scan the
full venue list, absorbing every still-unassigned venue within
`maxDistanceMeters` of the seed.  Returns the absorbed venues in scan
order together with the grown assigned set (a list of placeIds standing
for the JS `Set<string>`). -/
def absorbNearby (dist : Location → Location → ℚ) (maxDistanceMeters : ℚ)
    (seed : Venue) : List Venue → List String → List Venue × List String
  | [], assigned => ([], assigned)
  | other :: rest, assigned =>
    if other.placeId ∈ assigned then absorbNearby dist maxDistanceMeters seed rest assigned
    else if dist seed.location other.location ≤ maxDistanceMeters then
      let step := absorbNearby dist maxDistanceMeters seed rest (other.placeId :: assigned)
      (other :: step.1, step.2)
    else absorbNearby dist maxDistanceMeters seed rest assigned

/-- The outer loop of ranking.ts `clusterByProximity`: walk the venues in
input order; each unassigned venue seeds a cluster and absorbs nearby
unassigned venues from the whole list. -/
def clusterOuter (dist : Location → Location → ℚ) (maxDistanceMeters : ℚ)
    (all : List Venue) : List Venue → List String → List (List Venue)
  | [], _ => []
  | venue :: rest, assigned =>
    if venue.placeId ∈ assigned then
      clusterOuter dist maxDistanceMeters all rest assigned
    else
      let seeded := absorbNearby dist maxDistanceMeters venue all (venue.placeId :: assigned)
      (venue :: seeded.1) :: clusterOuter dist maxDistanceMeters all rest seeded.2

/-- The comparator sorting clusters by descending size
(`(a, b) => b.length - a.length`). -/
def lengthDescLE (a b : List Venue) : Prop :=
  b.length ≤ a.length

instance : DecidableRel lengthDescLE :=
  fun a b => inferInstanceAs (Decidable (b.length ≤ a.length))

/-- ranking.ts `clusterByProximity` (the source's default radius is 1500 m,
passed explicitly here). -/
def clusterByProximity (dist : Location → Location → ℚ) (venues : List Venue)
    (maxDistanceMeters : ℚ) : List (List Venue) :=
  if venues.length = 0 then []
  else (clusterOuter dist maxDistanceMeters venues venues []).insertionSort lengthDescLE

/-- The three candidate pools handed to `selectBestVenues`. -/
structure CategoryPools where
  activity : List Venue
  dinner : List Venue
  finish : List Venue
deriving DecidableEq, Repr

/-- Per-category per-person budgets handed to `selectBestVenues`. -/
structure CategoryBudgets where
  activity : ℚ
  dinner : ℚ
  finish : ℚ
deriving DecidableEq, Repr

/-- The `selected` record of `selectBestVenues`: the JS
`Record<string, Venue>` only ever holds the keys `activity` / `dinner` /
`finish`, an absent key being `none`. -/
structure SelectedVenues where
  activity : Option Venue
  dinner : Option Venue
  finish : Option Venue
deriving DecidableEq, Repr

/-- The `backups` record of `selectBestVenues` (initialised to three empty
lists in the source). -/
structure BackupVenues where
  activity : List Venue
  dinner : List Venue
  finish : List Venue
deriving DecidableEq, Repr

/-- Return value of `selectBestVenues`. -/
structure SelectionResult where
  selected : SelectedVenues
  backups : BackupVenues
deriving DecidableEq, Repr

/-- ranking.ts `selectBestVenues`.  The JS guard
`if (ranked.length > 0 && ranked[0])` sets the selected key and overwrites
the backups; otherwise the key stays absent and the backups stay empty —
`head?` and slices of the empty list reproduce both outcomes
(`slice(1, 3)` is `drop 1` then `take 2`, `slice(1, 4)` is `drop 1` then
`take 3`).  The re-ranking block runs only when a dinner was selected and
the corresponding pool ranking has more than one entry. -/
def selectBestVenues (dist : Location → Location → ℚ) (pools : CategoryPools)
    (preferences : Preferences) (budgetPerCategory : CategoryBudgets) :
    SelectionResult :=
  let rankedActivity := rankVenues dist pools.activity preferences budgetPerCategory.activity none
  let rankedDinner := rankVenues dist pools.dinner preferences budgetPerCategory.dinner none
  let rankedFinish := rankVenues dist pools.finish preferences budgetPerCategory.finish none
  let selActivity0 := rankedActivity.head?.map (·.venue)
  let bkActivity0 := ((rankedActivity.drop 1).take 2).map (·.venue)
  let bkDinner := ((rankedDinner.drop 1).take 3).map (·.venue)
  let selFinish0 := rankedFinish.head?.map (·.venue)
  let bkFinish0 := ((rankedFinish.drop 1).take 2).map (·.venue)
  match rankedDinner.head? with
  | none =>
    { selected := ⟨selActivity0, none, selFinish0⟩
      backups := ⟨bkActivity0, bkDinner, bkFinish0⟩ }
  | some d0 =>
    let dinnerLocation := d0.venue.location
    let activityPick :=
      if rankedActivity.length > 1 then
        let rerankedActivity :=
          rankVenues dist pools.activity preferences budgetPerCategory.activity
            (some dinnerLocation)
        match rerankedActivity.head? with
        | some a0 => (some a0.venue, ((rerankedActivity.drop 1).take 2).map (·.venue))
        | none => (selActivity0, bkActivity0)
      else (selActivity0, bkActivity0)
    let finishPick :=
      if rankedFinish.length > 1 then
        let rerankedFinish :=
          rankVenues dist pools.finish preferences budgetPerCategory.finish
            (some dinnerLocation)
        match rerankedFinish.head? with
        | some f0 => (some f0.venue, ((rerankedFinish.drop 1).take 2).map (·.venue))
        | none => (selFinish0, bkFinish0)
      else (selFinish0, bkFinish0)
    { selected := ⟨activityPick.1, some d0.venue, finishPick.1⟩
      backups := ⟨activityPick.2, bkDinner, finishPick.2⟩ }

/-! ### Skeleton builder (the unnamed skeleton module)

The source passes times around as "HH:MM" strings.  `parseTime` splits on
":" and `parseInt`s the two pieces; on a well-formed string this is
`60*h + m`, so times are embedded as the parsed pair of integers, and the
claims' "well-formed HH:MM" precondition becomes `0 ≤ h < 24 ∧ 0 ≤ m < 60`. -/

/-- An "HH:MM" time as its two parsed integer components. -/
structure HHMM where
  h : ℤ
  m : ℤ
deriving DecidableEq, Repr

/-- Skeleton module `parseTime`: minutes since midnight. -/
def parseTime (time : HHMM) : ℤ :=
  time.h * 60 + time.m

/-- Skeleton module `formatTime`.  `Math.floor` division is `Int.fdiv` and
the JS `%` operator is the truncating remainder `Int.tmod`. -/
def formatTime (minutes : ℤ) : HHMM :=
  ⟨(minutes.fdiv 60).tmod 24, minutes.tmod 60⟩

/-- One slot of a skeleton (types/state.ts `SkeletonSlotSchema`); the
category type is the schema's enum string. -/
structure SkeletonSlot where
  label : String
  type : String
  budgetPercent : ℚ
  timeStart : Option HHMM
  durationMins : Option ℤ
deriving DecidableEq, Repr

/-- Skeleton module `DEFAULT_TEMPLATE`. -/
def DEFAULT_TEMPLATE : List SkeletonSlot :=
  [ ⟨"Arrival drink", "drinks", 15, none, some 45⟩,
    ⟨"Main activity", "activity", 25, none, some 90⟩,
    ⟨"Dinner", "dinner", 50, none, some 90⟩,
    ⟨"Nightcap / Dessert", "dessert", 10, none, some 45⟩ ]

/-- Skeleton module `LATE_START_TEMPLATE`. -/
def LATE_START_TEMPLATE : List SkeletonSlot :=
  [ ⟨"Dinner", "dinner", 55, none, some 100⟩,
    ⟨"Activity / Walk", "activity", 25, none, some 60⟩,
    ⟨"Nightcap", "drinks", 20, none, some 45⟩ ]

/-- Skeleton module `AFTERNOON_TEMPLATE`. -/
def AFTERNOON_TEMPLATE : List SkeletonSlot :=
  [ ⟨"Coffee / Light bite", "drinks", 15, none, some 30⟩,
    ⟨"Main activity", "activity", 50, none, some 120⟩,
    ⟨"Late lunch / Early dinner", "dinner", 35, none, some 75⟩ ]

/-- Skeleton module `BUDGET_TEMPLATE`. -/
def BUDGET_TEMPLATE : List SkeletonSlot :=
  [ ⟨"Scenic walk / Free activity", "scenic", 5, none, some 45⟩,
    ⟨"Main activity", "activity", 30, none, some 90⟩,
    ⟨"Dinner", "dinner", 55, none, some 75⟩,
    ⟨"Dessert / Walk", "dessert", 10, none, some 30⟩ ]

/-- Skeleton module `FANCY_TEMPLATE`. -/
def FANCY_TEMPLATE : List SkeletonSlot :=
  [ ⟨"Champagne / Aperitif", "drinks", 12, none, some 45⟩,
    ⟨"Premium activity", "activity", 28, none, some 90⟩,
    ⟨"Fine dining", "dinner", 50, none, some 120⟩,
    ⟨"Cocktails / Nightcap", "drinks", 10, none, some 45⟩ ]

/-- The window-length ternary that appears verbatim in both
`selectTemplate` (as `durationMins`) and `adjustDurations` (as
`availableMins`): `endMins > startMins ? endMins - startMins :
(24 * 60 - startMins) + endMins`. -/
def windowLenCode (startTime endTime : HHMM) : ℤ :=
  let startMins := parseTime startTime
  let endMins := parseTime endTime
  if endMins > startMins then endMins - startMins else (24 * 60 - startMins) + endMins

/-- JavaScript `Math.round`: half-up rounding, `⌊x + 1/2⌋`. -/
def jsRound (x : ℚ) : ℤ :=
  ⌊x + 0.5⌋

/-- Skeleton module `selectTemplate`: first matching rule wins.
`Math.floor(durationMins * 0.4)` is an integer floor of an exact rational. -/
def selectTemplate (budget : Budget) (startTime endTime : HHMM) : List SkeletonSlot :=
  let durationMins := windowLenCode startTime endTime
  if budget.amount < 80 then BUDGET_TEMPLATE
  else if budget.amount > 250 then FANCY_TEMPLATE
  else if parseTime startTime ≥ 20 * 60 then LATE_START_TEMPLATE
  else if parseTime startTime ≥ 14 * 60 ∧ parseTime endTime ≤ 18 * 60 then AFTERNOON_TEMPLATE
  else if durationMins < 180 then
    [ ⟨"Activity", "activity", 40, none, some ⌊(durationMins : ℚ) * 0.4⌋⟩,
      ⟨"Dinner / Drinks", "dinner", 60, none, some ⌊(durationMins : ℚ) * 0.6⌋⟩ ]
  else DEFAULT_TEMPLATE

/-- Skeleton module `adjustDurations`: rescale the template durations so
they sum (up to rounding) to the window length. -/
def adjustDurations (slots : List SkeletonSlot) (startTime endTime : HHMM) :
    List SkeletonSlot :=
  let availableMins := windowLenCode startTime endTime
  let totalTemplateMins := slots.foldl (fun sum s => sum + s.durationMins.getD 0) (0 : ℤ)
  let scale : ℚ := if totalTemplateMins > 0 then (availableMins : ℚ) / (totalTemplateMins : ℚ) else 1
  slots.map fun slot =>
    { slot with durationMins := some (jsRound ((slot.durationMins.getD 60 : ℚ) * scale)) }

/-- Skeleton module `assignTimes`: the JS `map` with a mutable
`currentMins` counter, advancing by each slot's duration plus a fixed
10-minute travel buffer. -/
def assignTimes (slots : List SkeletonSlot) (startTime : HHMM) : List SkeletonSlot :=
  go slots (parseTime startTime)
where
  go : List SkeletonSlot → ℤ → List SkeletonSlot
    | [], _ => []
    | slot :: rest, currentMins =>
      { slot with timeStart := some (formatTime currentMins) } ::
        go rest (currentMins + slot.durationMins.getD 60 + 10)

/-- A skeleton (types/state.ts `SkeletonSchema`), the time window kept as
its two parsed endpoints. -/
structure Skeleton where
  slots : List SkeletonSlot
  totalBudget : ℚ
  timeWindowStart : HHMM
  timeWindowEnd : HHMM
deriving DecidableEq, Repr

/-- Skeleton module `buildSkeleton`: select a template, rescale its
durations to the window, assign concrete start times. -/
def buildSkeleton (budget : Budget) (startTime endTime : HHMM) : Skeleton :=
  let slots0 := selectTemplate budget startTime endTime
  let slots1 := adjustDurations slots0 startTime endTime
  let slots2 := assignTimes slots1 startTime
  { slots := slots2
    totalBudget := budget.amount
    timeWindowStart := startTime
    timeWindowEnd := endTime }

/-- Skeleton module `getBudgetForSlot`. -/
def getBudgetForSlot (skeleton : Skeleton) (slotType : String) : ℤ :=
  match skeleton.slots.find? (fun s => s.type = slotType) with
  | none => 0
  | some slot => jsRound (skeleton.totalBudget * slot.budgetPercent / 100)

/-- Skeleton module `validateSkeleton`: the percents sum to 100 ± 5. -/
def validateSkeleton (skeleton : Skeleton) : Bool :=
  let totalPercent := skeleton.slots.foldl (fun sum s => sum + s.budgetPercent) 0
  decide (totalPercent ≥ 95 ∧ totalPercent ≤ 105)

/-! ### Plan assembly (graph.ts `buildPlanFromVenues` and helpers) -/

/-- One stop of a plan (types/state.ts `StopSchema`). -/
structure Stop where
  time : HHMM
  label : String
  venue : Venue
  estimatedCostRange : ℤ × ℤ
  whyItFits : String
  travelFromPrevMins : ℤ
  openCheck : String
deriving DecidableEq, Repr

/-- A backup entry (types/state.ts `BackupSchema`). -/
structure Backup where
  label : String
  name : String
  mapsUrl : String
  whyBackup : String
deriving DecidableEq, Repr

/-- A plan (types/state.ts `PlanSchema`); the id is one of "A"/"B"/"C". -/
structure Plan where
  id : String
  title : String
  stops : List Stop
  backups : List Backup
deriving DecidableEq, Repr

/-- graph.ts `addMinutes`: add minutes to an "HH:MM" clock time, wrapping
past midnight.  As in `formatTime`, `Math.floor` division is `Int.fdiv`
and JS `%` is `Int.tmod`. -/
def addMinutes (time : HHMM) (mins : ℤ) : HHMM :=
  let totalMins := time.h * 60 + time.m + mins
  ⟨(totalMins.fdiv 60).tmod 24, totalMins.tmod 60⟩

/-- Render a rating the way the source interpolates it into backup and
stop blurbs (`venue.rating ?? "good"`). -/
def ratingText (venue : Venue) : String :=
  match venue.rating with
  | some r => toString r
  | none => "good"

/-- graph.ts `venueToBackup`. -/
def venueToBackup (venue : Venue) : Backup :=
  let label := if venue.category = "dinner" then "Dinner backup" else "Activity backup"
  { label := label
    name := venue.name
    mapsUrl := venue.mapsUrl
    whyBackup := "Alternative " ++ venue.category ++ " with " ++ ratingText venue ++ " rating" }

/-- The placeId-dedup filter at the top of `buildPlanFromVenues` (the JS
`seen` set keeps the first occurrence of each placeId). -/
def dedupByPlaceId : List Venue → List String → List Venue
  | [], _ => []
  | v :: rest, seen =>
    if v.placeId ∈ seen then dedupByPlaceId rest seen
    else v :: dedupByPlaceId rest (v.placeId :: seen)

/-- The category priority order of `buildPlanFromVenues`. -/
def categoryOrder (familyFriendly : Bool) : List String :=
  if familyFriendly then ["activity", "dinner", "dessert", "scenic", "finish", "drinks"]
  else ["drinks", "activity", "dinner", "dessert", "finish", "scenic"]

/-- The sort key of `buildPlanFromVenues` (`indexOf` misses, which return
-1 in JS, are mapped to 999). -/
def categoryIndex (order : List String) (v : Venue) : ℤ :=
  match order.findIdx? (fun c => c = v.category) with
  | some i => (i : ℤ)
  | none => 999

/-- Per-category per-person budget share (the `categoryBudgets` record of
`buildPlanFromVenues`, with its `?? perPersonBudget / numStops` default). -/
def categoryBudgetFor (perPersonBudget : ℚ) (numStops : ℕ) (category : String) : ℚ :=
  if category = "dinner" then perPersonBudget * 0.45
  else if category = "activity" then perPersonBudget * 0.30
  else if category = "drinks" then perPersonBudget * 0.15
  else if category = "dessert" then perPersonBudget * 0.10
  else if category = "finish" then perPersonBudget * 0.15
  else if category = "scenic" then perPersonBudget * 0.05
  else perPersonBudget / numStops

/-- The price-level multiplier array `[0.5, 0.75, 1.0, 1.3, 1.6]`
(an out-of-range index is `undefined`, defaulted to 1.0 by `?? 1.0`). -/
def priceMultiplier (priceLevel : ℕ) : ℚ :=
  (([0.5, 0.75, 1.0, 1.3, 1.6] : List ℚ).get? priceLevel).getD 1.0

/-- Fixed per-category dwell durations of `buildPlanFromVenues`
(a missing category falls back to `?? 60`). -/
def categoryDuration (category : String) : Option ℤ :=
  if category = "drinks" then some 45
  else if category = "activity" then some 90
  else if category = "dinner" then some 90
  else if category = "dessert" then some 30
  else if category = "finish" then some 60
  else if category = "scenic" then some 30
  else none

/-- JS `category.charAt(0).toUpperCase() + category.slice(1)`. -/
def capitalize (s : String) : String :=
  match s.toList with
  | [] => ""
  | c :: cs => String.mk (c.toUpper :: cs)

/-- The stop-building loop of `buildPlanFromVenues`: one stop per venue,
threading the clock time, the previous placeId, and the per-label counts
(the JS `labelCounts` record, embedded as a function). -/
def buildStops (travelTimes : String → Option ℤ) (mode : String)
    (perPersonBudget : ℚ) (numStops : ℕ) :
    List Venue → HHMM → Option String → (String → ℕ) → List Stop
  | [], _, _, _ => []
  | venue :: rest, currentTime, prevVenueId, labelCounts =>
    let travelFromPrev : ℤ :=
      match prevVenueId with
      | none => 0
      | some pid => (travelTimes (pid ++ "->" ++ venue.placeId)).getD 10
    let time1 :=
      match prevVenueId with
      | none => currentTime
      | some _ => addMinutes currentTime travelFromPrev
    let categoryBudget := categoryBudgetFor perPersonBudget numStops venue.category
    let priceLevel := venue.priceLevel.getD 2
    let baseCost := categoryBudget * priceMultiplier priceLevel
    let estimatedCostRange : ℤ × ℤ := (jsRound (baseCost * 0.8), jsRound (baseCost * 1.2))
    let baseLabel := capitalize venue.category
    let newCount := labelCounts baseLabel + 1
    let labelCounts1 := fun l => if l = baseLabel then newCount else labelCounts l
    let label := if newCount > 1 then baseLabel ++ " " ++ toString newCount else baseLabel
    let stop : Stop :=
      { time := time1
        label := label
        venue := venue
        estimatedCostRange := estimatedCostRange
        whyItFits := "Great option with " ++ ratingText venue ++ " rating"
        travelFromPrevMins := travelFromPrev
        openCheck :=
          if mode = "verified" then "Verified: Check hours in Maps"
          else "Standard (confirm hours in Maps)" }
    let time2 := addMinutes time1 ((categoryDuration venue.category).getD 60)
    stop :: buildStops travelTimes mode perPersonBudget numStops rest time2
      (some venue.placeId) labelCounts1

/-- The comparator sorting venues by category priority
(`(aIndex === -1 ? 999 : aIndex) - (bIndex === -1 ? 999 : bIndex)`). -/
def categoryLE (order : List String) (a b : Venue) : Prop :=
  categoryIndex order a ≤ categoryIndex order b

instance (order : List String) : DecidableRel (categoryLE order) :=
  fun a b => inferInstanceAs (Decidable (categoryIndex order a ≤ categoryIndex order b))

/-- graph.ts `buildPlanFromVenues`: dedupe by placeId, sort by category
priority (JS sort, hence stable merge sort), then build the stops and map
the backup venues.  The travel-time record is a partial map keyed by
`"fromPlaceId->toPlaceId"`. -/
def buildPlanFromVenues (id title : String) (venues backupVenues : List Venue)
    (startTime : HHMM) (travelTimes : String → Option ℤ) (mode : String)
    (familyFriendly : Bool) (budget partySize : ℚ) : Plan :=
  let uniqueVenues := dedupByPlaceId venues []
  let order := categoryOrder familyFriendly
  let sortedVenues := uniqueVenues.insertionSort (categoryLE order)
  let numStops := if sortedVenues.length = 0 then 3 else sortedVenues.length
  let perPersonBudget := budget / partySize
  let stops := buildStops travelTimes mode perPersonBudget numStops sortedVenues
    startTime none (fun _ => 0)
  { id := id, title := title, stops := stops, backups := backupVenues.map venueToBackup }

/-! ### Claim-side definitions

The definitions below are written from the claims' words, not from the
source; they exist to be compared with the source embedding in the
refinement-style theorems and counterexamples. -/

/-- Modelled from the spec: the window length as the spec defines it,
`(end − start) mod 1440` (mathematical mod, i.e. `Int.emod` with the
positive modulus 1440). -/
def windowLenSpec (startTime endTime : HHMM) : ℤ :=
  (parseTime endTime - parseTime startTime) % 1440

/-- Tags for the six templates the spec's selection rules can produce. -/
inductive TemplateTag where
  | budgetT
  | fancyT
  | lateStartT
  | afternoonT
  | twoSlotT
  | defaultT
deriving DecidableEq, Repr

/-- Modelled from the spec: the claimed first-match template-selection
rule chain, with the window length as the spec defines it (mod 1440). -/
def selectTemplateClaim (amount : ℚ) (startTime endTime : HHMM) : TemplateTag :=
  if amount < 80 then .budgetT
  else if amount > 250 then .fancyT
  else if parseTime startTime ≥ 20 * 60 then .lateStartT
  else if parseTime startTime ≥ 14 * 60 ∧ parseTime endTime ≤ 18 * 60 then .afternoonT
  else if windowLenSpec startTime endTime < 180 then .twoSlotT
  else .defaultT

/-- The amended rule chain: identical to `selectTemplateClaim` except that
the window length is the one the code computes (`windowLenCode`), which
differs from the spec's mod-1440 only when start and end coincide. -/
def selectTemplateClaimAmended (amount : ℚ) (startTime endTime : HHMM) : TemplateTag :=
  if amount < 80 then .budgetT
  else if amount > 250 then .fancyT
  else if parseTime startTime ≥ 20 * 60 then .lateStartT
  else if parseTime startTime ≥ 14 * 60 ∧ parseTime endTime ≤ 18 * 60 then .afternoonT
  else if windowLenCode startTime endTime < 180 then .twoSlotT
  else .defaultT

/-- The (category, budgetPercent) shape each tag's template has according
to the claim. -/
def claimShape : TemplateTag → List (String × ℚ)
  | .budgetT => [("scenic", 5), ("activity", 30), ("dinner", 55), ("dessert", 10)]
  | .fancyT => [("drinks", 12), ("activity", 28), ("dinner", 50), ("drinks", 10)]
  | .lateStartT => [("dinner", 55), ("activity", 25), ("drinks", 20)]
  | .afternoonT => [("drinks", 15), ("activity", 50), ("dinner", 35)]
  | .twoSlotT => [("activity", 40), ("dinner", 60)]
  | .defaultT => [("drinks", 15), ("activity", 25), ("dinner", 50), ("dessert", 10)]

/-- The (category, budgetPercent) projection of a slot list. -/
def slotShape (slots : List SkeletonSlot) : List (String × ℚ) :=
  slots.map fun s => (s.type, s.budgetPercent)

/-- Sum of the slots' `durationMins` (absent treated as 0, as in the
source's reduction). -/
def sumDurations (slots : List SkeletonSlot) : ℤ :=
  slots.foldl (fun sum s => sum + s.durationMins.getD 0) 0

/-- Sum of the slots' `budgetPercent` (the reduction inside
`validateSkeleton`). -/
def sumPercents (slots : List SkeletonSlot) : ℚ :=
  slots.foldl (fun sum s => sum + s.budgetPercent) 0

/-! ## Helper lemmas -/

/-- A fold whose step never decreases the accumulator keeps the initial
value as a lower bound. -/
theorem le_foldl_of_step_le {α : Type} (f : ℚ → α → ℚ) (h : ∀ s a, s ≤ f s a) :
    ∀ (l : List α) (init : ℚ), init ≤ l.foldl f init
  | [], init => le_refl init
  | a :: l, init => le_trans (h init a) (le_foldl_of_step_le f h l (f init a))

/-- The preference-match component always lies in `[0.5, 1]`. -/
theorem scorePreferenceMatch_bounds (venue : Venue) (preferences : Preferences) :
    0.5 ≤ scorePreferenceMatch venue preferences ∧
      scorePreferenceMatch venue preferences ≤ 1 := by
  have hstep1 : ∀ (s : ℚ) (like : String),
      s ≤ if jsIncludes (lowerString venue.name) like ||
            jsIncludes (lowerString venue.category) like then s + 0.15 else s := by
    intro s like
    split
    · linarith
    · exact le_refl s
  have hstep2 : ∀ (s : ℚ) (vibe : String),
      s ≤ (vibeKeywords vibe).foldl
        (fun sc2 keyword =>
          if jsIncludes (lowerString venue.name) keyword then sc2 + 0.1 else sc2) s := by
    intro s vibe
    refine le_foldl_of_step_le _ ?_ _ _
    intro s2 keyword
    split
    · linarith
    · exact le_refl s2
  have h1 : (0.5 : ℚ) ≤ (preferences.likes.map lowerString).foldl
      (fun sc like =>
        if jsIncludes (lowerString venue.name) like ||
            jsIncludes (lowerString venue.category) like then sc + 0.15 else sc) 0.5 :=
    le_foldl_of_step_le _ hstep1 _ 0.5
  have h2 := le_foldl_of_step_le
    (fun sc vibe =>
      (vibeKeywords vibe).foldl
        (fun sc2 keyword =>
          if jsIncludes (lowerString venue.name) keyword then sc2 + 0.1 else sc2) sc)
    (fun s vibe => hstep2 s vibe) (preferences.vibe.map lowerString)
    ((preferences.likes.map lowerString).foldl
      (fun sc like =>
        if jsIncludes (lowerString venue.name) like ||
            jsIncludes (lowerString venue.category) like then sc + 0.15 else sc) 0.5)
  simp only [scorePreferenceMatch]
  constructor
  · refine le_min ?_ (le_trans h1 h2)
    norm_num
  · exact le_trans (min_le_left _ _) (by norm_num)

/-- The rating component always lies in `[0, 1]`. -/
theorem scoreRating_bounds (venue : Venue) :
    0 ≤ scoreRating venue ∧ scoreRating venue ≤ 1 := by
  rcases hv : venue.rating with _ | r
  · simp only [scoreRating, hv]
    norm_num
  · by_cases hr : r = 0
    · simp only [scoreRating, hv, hr, if_pos]
      norm_num
    · simp only [scoreRating, hv, if_neg hr]
      exact ⟨le_max_left 0 _, max_le (by norm_num) (min_le_left 1 _)⟩

/-- The proximity component always lies in `[0, 1]`, for any value of the
abstract distance. -/
theorem scoreProximity_bounds (dist : Location → Location → ℚ) (venue : Venue)
    (reference : Location) :
    0 ≤ scoreProximity dist venue reference ∧ scoreProximity dist venue reference ≤ 1 := by
  simp only [scoreProximity]
  split_ifs with h1 h2
  · norm_num
  · norm_num
  · push_neg at h1 h2
    have hlt : (dist venue.location reference - 500) / 4500 < 1 := by
      rw [div_lt_one (by norm_num)]
      linarith
    have hpos : 0 < (dist venue.location reference - 500) / 4500 :=
      div_pos (by linarith) (by norm_num)
    constructor <;> linarith

/-- The price-match component always lies in `[0, 1]`. -/
theorem scorePriceMatch_bounds (venue : Venue) (targetBudgetPerPerson : ℚ) :
    0 ≤ scorePriceMatch venue targetBudgetPerPerson ∧
      scorePriceMatch venue targetBudgetPerPerson ≤ 1 := by
  rcases hv : venue.priceLevel with _ | pl
  · simp only [scorePriceMatch, hv]
    norm_num
  · rcases hr : PRICE_LEVEL_EUR pl with _ | ⟨mn, mx⟩
    · simp only [scorePriceMatch, hv, hr]
      norm_num
    · simp only [scorePriceMatch, hv, hr]
      split_ifs with hin hlt
      · norm_num
      · have hnn : 0 ≤ (mn - targetBudgetPerPerson) / 50 :=
          div_nonneg (by linarith) (by norm_num)
        constructor
        · exact le_trans (by norm_num) (le_max_left 0.1 _)
        · exact max_le (by norm_num) (by linarith)
      · norm_num

/-- The review-count component always lies in `[0, 1]`. -/
theorem scoreReviewCount_bounds (venue : Venue) :
    0 ≤ scoreReviewCount venue ∧ scoreReviewCount venue ≤ 1 := by
  rcases hv : venue.reviewCount with _ | n
  · simp only [scoreReviewCount, hv]
    norm_num
  · simp only [scoreReviewCount, hv]
    split_ifs <;> norm_num

/-- The component-score record of `scoreVenue`, spelled out. -/
theorem scoreVenue_scores_eq (dist : Location → Location → ℚ) (reference : Location)
    (preferences : Preferences) (targetBudgetPerPerson : ℚ) (venue : Venue) :
    (scoreVenue dist reference preferences targetBudgetPerPerson venue).scores =
      ⟨scoreRating venue, scoreProximity dist venue reference,
        scorePriceMatch venue targetBudgetPerPerson,
        scorePreferenceMatch venue preferences, scoreReviewCount venue⟩ := rfl

/-- The composite score of `scoreVenue` is the fixed weighted sum. -/
theorem scoreVenue_score_eq (dist : Location → Location → ℚ) (reference : Location)
    (preferences : Preferences) (targetBudgetPerPerson : ℚ) (venue : Venue) :
    (scoreVenue dist reference preferences targetBudgetPerPerson venue).score =
      scoreRating venue * 0.30 + scoreProximity dist venue reference * 0.25 +
        scorePriceMatch venue targetBudgetPerPerson * 0.20 +
        scorePreferenceMatch venue preferences * 0.15 +
        scoreReviewCount venue * 0.10 := rfl

/-- The composite score of `scoreVenue` lies in `[0, 1]`. -/
theorem scoreVenue_score_bounds (dist : Location → Location → ℚ) (reference : Location)
    (preferences : Preferences) (targetBudgetPerPerson : ℚ) (venue : Venue) :
    0 ≤ (scoreVenue dist reference preferences targetBudgetPerPerson venue).score ∧
      (scoreVenue dist reference preferences targetBudgetPerPerson venue).score ≤ 1 := by
  rw [scoreVenue_score_eq]
  obtain ⟨h1a, h1b⟩ := scoreRating_bounds venue
  obtain ⟨h2a, h2b⟩ := scoreProximity_bounds dist venue reference
  obtain ⟨h3a, h3b⟩ := scorePriceMatch_bounds venue targetBudgetPerPerson
  obtain ⟨h4a, h4b⟩ := scorePreferenceMatch_bounds venue preferences
  obtain ⟨h5a, h5b⟩ := scoreReviewCount_bounds venue
  constructor
  · nlinarith
  · nlinarith

/-! ## Claim theorems -/

/-- C10: for every venue and every preference set the preference-match
component is at least 0.5 — likes and vibe keywords only ever add to the
0.5 base, and the final cap `min 1` cannot drop below it. -/
theorem preferenceMatch_never_below_base (venue : Venue) (preferences : Preferences) :
    0.5 ≤ scorePreferenceMatch venue preferences :=
  (scorePreferenceMatch_bounds venue preferences).1

/-- A venue whose rating field is present but equal to 0: the JS guard
`!venue.rating` treats it as missing. -/
def ratingZeroVenue : Venue :=
  { name := "Zero Rated"
    placeId := "zero"
    mapsUrl := ""
    address := ""
    location := ⟨0, 0⟩
    priceLevel := none
    rating := some 0
    reviewCount := none
    category := "dinner" }

/-- C4 counterexample: the claim says a present rating r (any value in
[0,5]) scores `clamp((r−3)/2, 0, 1)`, which at r = 0 is 0; the code
returns the neutral 0.5 because `!venue.rating` is truthy for the falsy
number 0. -/
theorem scoreRating_present_zero_cex :
    ¬ scoreRating ratingZeroVenue = max 0 (min 1 (((0 : ℚ) - 3) / 2)) := by
  with_unfolding_all decide

/-- C4 amended: a present nonzero rating scores `clamp((r−3)/2, 0, 1)`;
an absent or zero rating scores exactly 0.5. -/
theorem scoreRating_amended (venue : Venue) :
    (venue.rating = none → scoreRating venue = 0.5) ∧
    (∀ r, venue.rating = some r →
      (r = 0 → scoreRating venue = 0.5) ∧
      (r ≠ 0 → scoreRating venue = max 0 (min 1 ((r - 3) / 2)))) := by
  constructor
  · intro h
    unfold scoreRating
    rw [h]
  · intro r h
    constructor
    · intro h0
      unfold scoreRating
      rw [h]
      simp [h0]
    · intro h0
      unfold scoreRating
      rw [h]
      simp [h0]

/-- C4 witness: the amended theorem applied at a concrete venue with
rating 4 (nonzero and present) and at one with the rating absent. -/
theorem scoreRating_amended_witness :
    scoreRating { ratingZeroVenue with rating := some 4 } =
      max 0 (min 1 (((4 : ℚ) - 3) / 2)) ∧
    scoreRating { ratingZeroVenue with rating := none } = 0.5 :=
  ⟨((scoreRating_amended { ratingZeroVenue with rating := some 4 }).2 4 rfl).2
      (by norm_num),
    (scoreRating_amended { ratingZeroVenue with rating := none }).1 rfl⟩

/-- C3: every component score of every venue ranked by `rankVenues` lies
in [0,1], the composite is the fixed 0.30/0.25/0.20/0.15/0.10 weighted
sum of the components, and the composite also lies in [0,1]. -/
theorem rankVenues_scores_unit_interval (dist : Location → Location → ℚ)
    (venues : List Venue) (preferences : Preferences)
    (targetBudgetPerPerson : ℚ) (referenceLocation : Option Location)
    (sv : ScoredVenue)
    (hmem : sv ∈ rankVenues dist venues preferences targetBudgetPerPerson referenceLocation) :
    (0 ≤ sv.scores.rating ∧ sv.scores.rating ≤ 1) ∧
    (0 ≤ sv.scores.proximity ∧ sv.scores.proximity ≤ 1) ∧
    (0 ≤ sv.scores.priceMatch ∧ sv.scores.priceMatch ≤ 1) ∧
    (0 ≤ sv.scores.preferenceMatch ∧ sv.scores.preferenceMatch ≤ 1) ∧
    (0 ≤ sv.scores.reviewCount ∧ sv.scores.reviewCount ≤ 1) ∧
    sv.score =
      sv.scores.rating * 0.30 + sv.scores.proximity * 0.25 +
        sv.scores.priceMatch * 0.20 + sv.scores.preferenceMatch * 0.15 +
        sv.scores.reviewCount * 0.10 ∧
    (0 ≤ sv.score ∧ sv.score ≤ 1) := by
  rw [rankVenues, List.mem_insertionSort] at hmem
  rw [scoredList, List.mem_map] at hmem
  obtain ⟨v, _, rfl⟩ := hmem
  rw [scoreVenue_scores_eq, scoreVenue_score_eq]
  refine ⟨scoreRating_bounds v, scoreProximity_bounds dist v _,
    scorePriceMatch_bounds v targetBudgetPerPerson,
    ⟨le_trans (by norm_num) (scorePreferenceMatch_bounds v preferences).1,
      (scorePreferenceMatch_bounds v preferences).2⟩,
    scoreReviewCount_bounds v, rfl, ?_⟩
  rw [← scoreVenue_score_eq dist (referenceLocation.getD (calculateCentroid venues))
    preferences targetBudgetPerPerson v]
  exact scoreVenue_score_bounds _ _ _ _ _

/-- A neutral venue used by several witnesses. -/
def witnessVenue : Venue :=
  { name := "Museo"
    placeId := "w1"
    mapsUrl := ""
    address := ""
    location := ⟨0, 0⟩
    priceLevel := some 2
    rating := some 4.5
    reviewCount := some 120
    category := "activity" }

/-- Preferences with no likes or vibes, used by several witnesses. -/
def witnessPrefs : Preferences :=
  { vibe := []
    dietary := []
    alcoholOk := true
    walking := "medium"
    indoorsPreferred := false
    likes := []
    familyFriendly := false }

/-- The everywhere-zero distance function used by witnesses (any concrete
stand-in for the haversine works here). -/
def witnessDist : Location → Location → ℚ := fun _ _ => 0

/-- C3 witness: the bounds theorem applied to a concrete one-venue
ranking. -/
theorem rankVenues_scores_unit_interval_witness :
    let sv := scoreVenue witnessDist ⟨0, 0⟩ witnessPrefs 30 witnessVenue
    (0 ≤ sv.scores.rating ∧ sv.scores.rating ≤ 1) ∧
    (0 ≤ sv.scores.proximity ∧ sv.scores.proximity ≤ 1) ∧
    (0 ≤ sv.scores.priceMatch ∧ sv.scores.priceMatch ≤ 1) ∧
    (0 ≤ sv.scores.preferenceMatch ∧ sv.scores.preferenceMatch ≤ 1) ∧
    (0 ≤ sv.scores.reviewCount ∧ sv.scores.reviewCount ≤ 1) ∧
    sv.score =
      sv.scores.rating * 0.30 + sv.scores.proximity * 0.25 +
        sv.scores.priceMatch * 0.20 + sv.scores.preferenceMatch * 0.15 +
        sv.scores.reviewCount * 0.10 ∧
    (0 ≤ sv.score ∧ sv.score ≤ 1) :=
  rankVenues_scores_unit_interval witnessDist [witnessVenue] witnessPrefs 30 none
    (scoreVenue witnessDist ⟨0, 0⟩ witnessPrefs 30 witnessVenue)
    (by with_unfolding_all decide)

/-- C2 counterexample: at start = end = 10:00 with a 100 EUR budget, no
earlier rule fires and the spec's window length is (end−start) mod 1440 =
0 < 180, so the claimed rule chain mandates the synthesized 2-slot
template; the code computes a 1440-minute window instead and returns the
4-slot DEFAULT template. -/
theorem selectTemplate_equal_times_cex :
    selectTemplateClaim 100 ⟨10, 0⟩ ⟨10, 0⟩ = TemplateTag.twoSlotT ∧
    slotShape (selectTemplate ⟨100, "EUR"⟩ ⟨10, 0⟩ ⟨10, 0⟩) ≠
      claimShape TemplateTag.twoSlotT := by
  with_unfolding_all decide

/-- C2 amended: `selectTemplate` follows the claimed first-match rule
chain exactly, with the window length defined as the code computes it
(`end − start` when end > start, else `1440 − start + end`; the two
definitions differ only when start = end); in particular a 70 EUR budget
always selects the BUDGET template. -/
theorem selectTemplate_follows_claim_rules (budget : Budget) (startTime endTime : HHMM)
    (hb : 0 < budget.amount) :
    slotShape (selectTemplate budget startTime endTime) =
      claimShape (selectTemplateClaimAmended budget.amount startTime endTime) ∧
    (budget.amount = 70 → selectTemplate budget startTime endTime = BUDGET_TEMPLATE) := by
  constructor
  · simp only [selectTemplate, selectTemplateClaimAmended]
    split_ifs <;> rfl
  · intro h70
    have hlt : budget.amount < 80 := by rw [h70]; norm_num
    simp only [selectTemplate, if_pos hlt]

/-- C2 witness: the amended rule chain at a concrete 70 EUR budget,
18:00–23:00. -/
theorem selectTemplate_follows_claim_rules_witness :
    slotShape (selectTemplate ⟨70, "EUR"⟩ ⟨18, 0⟩ ⟨23, 0⟩) =
      claimShape (selectTemplateClaimAmended (70 : ℚ) ⟨18, 0⟩ ⟨23, 0⟩) ∧
    ((70 : ℚ) = 70 → selectTemplate ⟨70, "EUR"⟩ ⟨18, 0⟩ ⟨23, 0⟩ = BUDGET_TEMPLATE) :=
  selectTemplate_follows_claim_rules ⟨70, "EUR"⟩ ⟨18, 0⟩ ⟨23, 0⟩ (by norm_num)

/-- `assignTimes.go` preserves the number of slots. -/
theorem assignTimes_go_length :
    ∀ (slots : List SkeletonSlot) (c : ℤ), (assignTimes.go slots c).length = slots.length
  | [], _ => rfl
  | _ :: rest, c => by
    simp only [assignTimes.go, List.length_cons, assignTimes_go_length rest]

/-- `selectTemplate` never returns an empty template. -/
theorem selectTemplate_ne_nil (budget : Budget) (startTime endTime : HHMM) :
    selectTemplate budget startTime endTime ≠ [] := by
  simp only [selectTemplate]
  split_ifs <;>
    simp [BUDGET_TEMPLATE, FANCY_TEMPLATE, LATE_START_TEMPLATE, AFTERNOON_TEMPLATE,
      DEFAULT_TEMPLATE]

/-- C9: the core functions are total; empty candidate pools degrade to
empty rankings, an empty cluster list and an empty selection with no
backups, and `buildSkeleton` always returns a non-empty skeleton. -/
theorem core_degrades_without_failure (dist : Location → Location → ℚ)
    (preferences : Preferences) (targetBudgetPerPerson radius : ℚ)
    (referenceLocation : Option Location) (budgetPerCategory : CategoryBudgets)
    (budget : Budget) (startTime endTime : HHMM) :
    rankVenues dist [] preferences targetBudgetPerPerson referenceLocation = [] ∧
    clusterByProximity dist [] radius = [] ∧
    selectBestVenues dist ⟨[], [], []⟩ preferences budgetPerCategory =
      ⟨⟨none, none, none⟩, ⟨[], [], []⟩⟩ ∧
    (buildSkeleton budget startTime endTime).slots ≠ [] := by
  refine ⟨rfl, rfl, rfl, ?_⟩
  have hlen : (buildSkeleton budget startTime endTime).slots.length =
      (selectTemplate budget startTime endTime).length := by
    simp only [buildSkeleton, assignTimes, assignTimes_go_length, adjustDurations,
      List.length_map]
  intro hnil
  apply selectTemplate_ne_nil budget startTime endTime
  rw [hnil] at hlen
  exact List.eq_nil_of_length_eq_zero hlen.symm

/-- Half-up rounding is off by at most 1/2. -/
theorem jsRound_err (x : ℚ) : |(jsRound x : ℚ) - x| ≤ 1 / 2 := by
  rw [abs_le]
  have h1 : (jsRound x : ℚ) ≤ x + 0.5 := Int.floor_le (x + 0.5)
  have h2 : x + 0.5 < (jsRound x : ℚ) + 1 := Int.lt_floor_add_one (x + 0.5)
  constructor <;> [linarith; linarith]

/-- Half-up rounding is monotone. -/
theorem jsRound_mono {x y : ℚ} (h : x ≤ y) : jsRound x ≤ jsRound y :=
  Int.floor_le_floor (by linarith)

/-- An add-fold starting from `i` is `i` plus the mapped sum. -/
theorem foldl_add_eq_sum {α M : Type} [AddCommMonoid M] (f : α → M) :
    ∀ (l : List α) (i : M), l.foldl (fun a s => a + f s) i = i + (l.map f).sum
  | [], i => by simp
  | x :: l, i => by
    simp only [List.foldl_cons, List.map_cons, List.sum_cons,
      foldl_add_eq_sum f l (i + f x)]
    rw [add_assoc]

/-- `sumDurations` as a mapped sum. -/
theorem sumDurations_eq_sum (slots : List SkeletonSlot) :
    sumDurations slots = (slots.map fun s => s.durationMins.getD 0).sum := by
  rw [sumDurations, foldl_add_eq_sum, zero_add]

/-- `sumPercents` as a mapped sum. -/
theorem sumPercents_eq_sum (slots : List SkeletonSlot) :
    sumPercents slots = (slots.map fun s => s.budgetPercent).sum := by
  rw [sumPercents, foldl_add_eq_sum, zero_add]

/-- `assignTimes.go` does not change any slot's duration. -/
theorem assignTimes_go_durations :
    ∀ (slots : List SkeletonSlot) (c : ℤ),
      (assignTimes.go slots c).map (fun s => s.durationMins.getD 0) =
        slots.map fun s => s.durationMins.getD 0
  | [], _ => rfl
  | s :: rest, c => by
    simp only [assignTimes.go, List.map_cons, assignTimes_go_durations rest]

/-- `assignTimes.go` does not change any slot's budget percent. -/
theorem assignTimes_go_percents :
    ∀ (slots : List SkeletonSlot) (c : ℤ),
      (assignTimes.go slots c).map (fun s => s.budgetPercent) =
        slots.map fun s => s.budgetPercent
  | [], _ => rfl
  | s :: rest, c => by
    simp only [assignTimes.go, List.map_cons, assignTimes_go_percents rest]

/-- `adjustDurations` does not change any slot's budget percent. -/
theorem adjustDurations_percents (slots : List SkeletonSlot) (startTime endTime : HHMM) :
    (adjustDurations slots startTime endTime).map (fun s => s.budgetPercent) =
      slots.map fun s => s.budgetPercent := by
  simp only [adjustDurations, List.map_map]
  rfl

/-- The summed half-up roundings of a list differ from its exact sum by at
most half the length. -/
theorem sum_jsRound_err :
    ∀ l : List ℚ, |((l.map jsRound).sum : ℚ) - l.sum| ≤ l.length / 2
  | [] => by simp
  | x :: l => by
    have ih := sum_jsRound_err l
    have hx := jsRound_err x
    simp only [List.map_cons, List.sum_cons, List.length_cons]
    have hcast : ((jsRound x + (l.map jsRound).sum : ℤ) : ℚ) =
        (jsRound x : ℚ) + ((l.map jsRound).sum : ℚ) := by
      push_cast
      ring
    have hlen : ((l.length + 1 : ℕ) : ℚ) = (l.length : ℚ) + 1 := by
      push_cast
      ring
    rw [hcast, hlen]
    have htri : |(jsRound x : ℚ) + ((l.map jsRound).sum : ℚ) - (x + l.sum)| ≤
        |(jsRound x : ℚ) - x| + |((l.map jsRound).sum : ℚ) - l.sum| := by
      have heq : (jsRound x : ℚ) + ((l.map jsRound).sum : ℚ) - (x + l.sum) =
          ((jsRound x : ℚ) - x) + (((l.map jsRound).sum : ℚ) - l.sum) := by ring
      rw [heq]
      exact abs_add _ _
    linarith

/-- A mapped integer sum casts to the rational sum of the casts. -/
theorem sum_map_intCast {α : Type} (f : α → ℤ) :
    ∀ l : List α, (l.map fun a => ((f a : ℤ) : ℚ)).sum = (((l.map f).sum : ℤ) : ℚ)
  | [] => by simp
  | x :: l => by
    simp only [List.map_cons, List.sum_cons, sum_map_intCast f l]
    push_cast
    ring

/-- `sumPercents` is unchanged by `assignTimes`. -/
theorem sumPercents_assignTimes (slots : List SkeletonSlot) (startTime : HHMM) :
    sumPercents (assignTimes slots startTime) = sumPercents slots := by
  rw [sumPercents_eq_sum, sumPercents_eq_sum, assignTimes, assignTimes_go_percents]

/-- `sumDurations` is unchanged by `assignTimes`. -/
theorem sumDurations_assignTimes (slots : List SkeletonSlot) (startTime : HHMM) :
    sumDurations (assignTimes slots startTime) = sumDurations slots := by
  rw [sumDurations_eq_sum, sumDurations_eq_sum, assignTimes, assignTimes_go_durations]

/-- `sumPercents` is unchanged by `adjustDurations`. -/
theorem sumPercents_adjustDurations (slots : List SkeletonSlot) (startTime endTime : HHMM) :
    sumPercents (adjustDurations slots startTime endTime) = sumPercents slots := by
  rw [sumPercents_eq_sum, sumPercents_eq_sum, adjustDurations_percents]

/-- `assignTimes` preserves the number of slots. -/
theorem length_assignTimes (slots : List SkeletonSlot) (startTime : HHMM) :
    (assignTimes slots startTime).length = slots.length := by
  rw [assignTimes, assignTimes_go_length]

/-- `adjustDurations` preserves the number of slots. -/
theorem length_adjustDurations (slots : List SkeletonSlot) (startTime endTime : HHMM) :
    (adjustDurations slots startTime endTime).length = slots.length := by
  simp [adjustDurations]

/-- After rescaling, the durations sum to the window length up to one
half-minute of rounding per slot, provided every template duration is
present and the template total is positive. -/
theorem sumDurations_adjustDurations (slots : List SkeletonSlot) (startTime endTime : HHMM)
    (hsome : ∀ s ∈ slots, s.durationMins.isSome = true)
    (hpos : 0 < sumDurations slots) :
    |sumDurations (adjustDurations slots startTime endTime) -
        windowLenCode startTime endTime| ≤ (slots.length : ℤ) := by
  have htot : slots.foldl (fun sum s => sum + s.durationMins.getD 0) 0 = sumDurations slots := rfl
  have hadj : adjustDurations slots startTime endTime =
      slots.map fun slot =>
        { slot with durationMins := some (jsRound ((slot.durationMins.getD 60 : ℚ) *
            ((windowLenCode startTime endTime : ℚ) / (sumDurations slots : ℚ)))) } := by
    simp only [adjustDurations, htot, if_pos hpos]
  set w := windowLenCode startTime endTime with hw
  set scale : ℚ := (w : ℚ) / (sumDurations slots : ℚ) with hscale
  have hsum1 : sumDurations (adjustDurations slots startTime endTime) =
      ((slots.map fun s => ((s.durationMins.getD 60 : ℚ) * scale)).map jsRound).sum := by
    rw [hadj, sumDurations_eq_sum, List.map_map, List.map_map]
    rfl
  have hxs : (slots.map fun s => ((s.durationMins.getD 60 : ℚ) * scale)).sum = (w : ℚ) := by
    rw [List.sum_map_mul_right]
    have hmap : (slots.map fun s => ((s.durationMins.getD 60 : ℤ) : ℚ)) =
        slots.map fun s => ((s.durationMins.getD 0 : ℤ) : ℚ) := by
      apply List.map_congr_left
      intro s hs
      rcases Option.isSome_iff_exists.mp (hsome s hs) with ⟨d, hd⟩
      rw [hd]
      rfl
    rw [hmap, sum_map_intCast, ← sumDurations_eq_sum, hscale]
    have hne : ((sumDurations slots : ℤ) : ℚ) ≠ 0 := by
      exact_mod_cast ne_of_gt hpos
    field_simp
  have herr := sum_jsRound_err (slots.map fun s => ((s.durationMins.getD 60 : ℚ) * scale))
  rw [hxs, List.length_map] at herr
  have hhalf : ((slots.length : ℚ)) / 2 ≤ (slots.length : ℚ) := by
    have : (0 : ℚ) ≤ (slots.length : ℚ) := by positivity
    linarith
  have hcast : |((sumDurations (adjustDurations slots startTime endTime) - w : ℤ) : ℚ)| ≤
      (slots.length : ℚ) := by
    have hsplit : ((sumDurations (adjustDurations slots startTime endTime) - w : ℤ) : ℚ) =
        ((sumDurations (adjustDurations slots startTime endTime) : ℤ) : ℚ) - (w : ℚ) := by
      push_cast
      ring
    rw [hsplit, hsum1]
    exact le_trans herr hhalf
  rw [← Int.cast_abs] at hcast
  exact_mod_cast hcast

/-- Rescaling a template whose durations are all literally 0 leaves every
duration at 0, whatever the scale factor. -/
theorem sumDur_map_round_zero (slots : List SkeletonSlot) (c : ℚ)
    (hzero : ∀ s ∈ slots, s.durationMins = some 0) :
    sumDurations (slots.map fun slot =>
      { slot with durationMins := some (jsRound ((slot.durationMins.getD 60 : ℚ) * c)) }) = 0 := by
  rw [sumDurations_eq_sum, List.map_map]
  have hmap : slots.map ((fun s : SkeletonSlot => s.durationMins.getD 0) ∘
      (fun slot : SkeletonSlot =>
        { slot with durationMins := some (jsRound ((slot.durationMins.getD 60 : ℚ) * c)) })) =
      slots.map fun _ => (0 : ℤ) := by
    apply List.map_congr_left
    intro s hs
    show jsRound ((s.durationMins.getD 60 : ℚ) * c) = 0
    rw [hzero s hs]
    show jsRound (((0 : ℤ) : ℚ) * c) = 0
    rw [Int.cast_zero, zero_mul, jsRound]
    norm_num
  rw [hmap]
  simp

/-- If every duration in the template is literally 0, rescaling leaves
the duration sum at 0 (this happens only for the synthesized short
template at a 1-minute window). -/
theorem sumDurations_adjustDurations_zero (slots : List SkeletonSlot)
    (startTime endTime : HHMM) (hzero : ∀ s ∈ slots, s.durationMins = some 0) :
    sumDurations (adjustDurations slots startTime endTime) = 0 := by
  simp only [adjustDurations]
  exact sumDur_map_round_zero slots _ hzero

/-- For well-formed times the code's window length is at least one
minute (note it is 1440, not 0, when the endpoints coincide). -/
theorem windowLenCode_pos (startTime endTime : HHMM)
    (hs2 : startTime.h < 24) (hs4 : startTime.m < 60)
    (he1 : 0 ≤ endTime.h) (he3 : 0 ≤ endTime.m) :
    1 ≤ windowLenCode startTime endTime := by
  simp only [windowLenCode, parseTime]
  split_ifs with h
  · omega
  · omega

/-- C6 counterexample: at the well-formed window 18:00–18:00 the spec's
window length is (end−start) mod 1440 = 0, but the skeleton's durations
sum to 1440 (the code treats coinciding endpoints as a full day), far
beyond the claimed per-slot rounding tolerance; the percent half of the
claim does hold there. -/
theorem buildSkeleton_equal_times_cex :
    (95 ≤ sumPercents (buildSkeleton ⟨100, "EUR"⟩ ⟨18, 0⟩ ⟨18, 0⟩).slots ∧
      sumPercents (buildSkeleton ⟨100, "EUR"⟩ ⟨18, 0⟩ ⟨18, 0⟩).slots ≤ 105) ∧
    ¬ (|sumDurations (buildSkeleton ⟨100, "EUR"⟩ ⟨18, 0⟩ ⟨18, 0⟩).slots -
        windowLenSpec ⟨18, 0⟩ ⟨18, 0⟩| ≤
          ((buildSkeleton ⟨100, "EUR"⟩ ⟨18, 0⟩ ⟨18, 0⟩).slots.length : ℤ)) := by
  with_unfolding_all decide

/-- C6 amended: for a positive budget and well-formed HH:MM endpoints,
the skeleton's budget percents sum into [95, 105] and its durations sum
to the window length within ± the number of slots, where the window
length is the one the code computes (`end − start` if end > start, else
`1440 − start + end`; this differs from the spec's mod-1440 only when
start = end, where the code produces a full 1440-minute day). -/
theorem buildSkeleton_sums (budget : Budget) (startTime endTime : HHMM)
    (hb : 0 < budget.amount)
    (hs1 : 0 ≤ startTime.h) (hs2 : startTime.h < 24)
    (hs3 : 0 ≤ startTime.m) (hs4 : startTime.m < 60)
    (he1 : 0 ≤ endTime.h) (he2 : endTime.h < 24)
    (he3 : 0 ≤ endTime.m) (he4 : endTime.m < 60) :
    (95 ≤ sumPercents (buildSkeleton budget startTime endTime).slots ∧
      sumPercents (buildSkeleton budget startTime endTime).slots ≤ 105) ∧
    |sumDurations (buildSkeleton budget startTime endTime).slots -
        windowLenCode startTime endTime| ≤
      ((buildSkeleton budget startTime endTime).slots.length : ℤ) := by
  have hw1 : 1 ≤ windowLenCode startTime endTime :=
    windowLenCode_pos startTime endTime hs2 hs4 he1 he3
  have hslots : (buildSkeleton budget startTime endTime).slots =
      assignTimes (adjustDurations (selectTemplate budget startTime endTime)
        startTime endTime) startTime := rfl
  rw [hslots, sumPercents_assignTimes, sumPercents_adjustDurations,
    sumDurations_assignTimes, length_assignTimes, length_adjustDurations]
  simp only [selectTemplate]
  split_ifs with h1 h2 h3 h4 h5
  · exact ⟨by with_unfolding_all decide,
      sumDurations_adjustDurations _ _ _ (by with_unfolding_all decide)
        (by with_unfolding_all decide)⟩
  · exact ⟨by with_unfolding_all decide,
      sumDurations_adjustDurations _ _ _ (by with_unfolding_all decide)
        (by with_unfolding_all decide)⟩
  · exact ⟨by with_unfolding_all decide,
      sumDurations_adjustDurations _ _ _ (by with_unfolding_all decide)
        (by with_unfolding_all decide)⟩
  · exact ⟨by with_unfolding_all decide,
      sumDurations_adjustDurations _ _ _ (by with_unfolding_all decide)
        (by with_unfolding_all decide)⟩
  · -- synthesized 2-slot template
    constructor
    · constructor <;> norm_num [sumPercents]
    · by_cases hpos : 0 < sumDurations
        [ ⟨"Activity", "activity", 40, none,
            some ⌊(windowLenCode startTime endTime : ℚ) * 0.4⌋⟩,
          ⟨"Dinner / Drinks", "dinner", 60, none,
            some ⌊(windowLenCode startTime endTime : ℚ) * 0.6⌋⟩ ]
      · refine le_trans (sumDurations_adjustDurations _ _ _ ?_ hpos) (by norm_num)
        intro s hs
        simp only [List.mem_cons, List.not_mem_nil, or_false] at hs
        rcases hs with rfl | rfl <;> rfl
      · have hcastw : (1 : ℚ) ≤ ((windowLenCode startTime endTime : ℤ) : ℚ) := by
          exact_mod_cast hw1
        have h04 : 0 ≤ ⌊(windowLenCode startTime endTime : ℚ) * 0.4⌋ := by
          apply Int.floor_nonneg.mpr
          nlinarith
        have h06 : 0 ≤ ⌊(windowLenCode startTime endTime : ℚ) * 0.6⌋ := by
          apply Int.floor_nonneg.mpr
          nlinarith
        have hsum : sumDurations
            [ ⟨"Activity", "activity", 40, none,
                some ⌊(windowLenCode startTime endTime : ℚ) * 0.4⌋⟩,
              ⟨"Dinner / Drinks", "dinner", 60, none,
                some ⌊(windowLenCode startTime endTime : ℚ) * 0.6⌋⟩ ] =
            ⌊(windowLenCode startTime endTime : ℚ) * 0.4⌋ +
              ⌊(windowLenCode startTime endTime : ℚ) * 0.6⌋ := by
          simp [sumDurations]
        rw [hsum] at hpos
        push_neg at hpos
        have hz4 : ⌊(windowLenCode startTime endTime : ℚ) * 0.4⌋ = 0 := by omega
        have hz6 : ⌊(windowLenCode startTime endTime : ℚ) * 0.6⌋ = 0 := by omega
        have hwlt : (windowLenCode startTime endTime : ℚ) * 0.6 < 1 := by
          have := Int.lt_floor_add_one ((windowLenCode startTime endTime : ℚ) * 0.6)
          rw [hz6] at this
          push_cast at this
          linarith
        have hwle : windowLenCode startTime endTime = 1 := by
          have hlt2 : ((windowLenCode startTime endTime : ℤ) : ℚ) < 2 := by nlinarith
          have : windowLenCode startTime endTime < 2 := by exact_mod_cast hlt2
          omega
        have hzero := sumDurations_adjustDurations_zero
          [ ⟨"Activity", "activity", 40, none,
              some ⌊(windowLenCode startTime endTime : ℚ) * 0.4⌋⟩,
            ⟨"Dinner / Drinks", "dinner", 60, none,
              some ⌊(windowLenCode startTime endTime : ℚ) * 0.6⌋⟩ ]
          startTime endTime (by
            intro s hs
            simp only [List.mem_cons, List.not_mem_nil, or_false] at hs
            rcases hs with rfl | rfl
            · simp [hz4]
            · simp [hz6])
        rw [hzero, hwle]
        norm_num
  · exact ⟨by with_unfolding_all decide,
      sumDurations_adjustDurations _ _ _ (by with_unfolding_all decide)
        (by with_unfolding_all decide)⟩

/-- C6 witness: the amended theorem at 100 EUR, 18:00–23:30. -/
theorem buildSkeleton_sums_witness :
    (95 ≤ sumPercents (buildSkeleton ⟨100, "EUR"⟩ ⟨18, 0⟩ ⟨23, 30⟩).slots ∧
      sumPercents (buildSkeleton ⟨100, "EUR"⟩ ⟨18, 0⟩ ⟨23, 30⟩).slots ≤ 105) ∧
    |sumDurations (buildSkeleton ⟨100, "EUR"⟩ ⟨18, 0⟩ ⟨23, 30⟩).slots -
        windowLenCode ⟨18, 0⟩ ⟨23, 30⟩| ≤
      ((buildSkeleton ⟨100, "EUR"⟩ ⟨18, 0⟩ ⟨23, 30⟩).slots.length : ℤ) :=
  buildSkeleton_sums ⟨100, "EUR"⟩ ⟨18, 0⟩ ⟨23, 30⟩ (by norm_num)
    (by norm_num) (by norm_num) (by norm_num) (by norm_num)
    (by norm_num) (by norm_num) (by norm_num) (by norm_num)

/-- C8: `rankVenues` returns the scored venues in non-increasing order of
composite score, and the sort is stable: restricted to any fixed score
value c, the output lists exactly the same scored venues, in the same
order, as the unsorted `scored` list (which maps the input in order) —
equal-score venues therefore keep their input relative order. -/
theorem rankVenues_sorted_stable (dist : Location → Location → ℚ)
    (venues : List Venue) (preferences : Preferences)
    (targetBudgetPerPerson : ℚ) (referenceLocation : Option Location) :
    (rankVenues dist venues preferences targetBudgetPerPerson referenceLocation).Pairwise
      (fun a b => b.score ≤ a.score) ∧
    ∀ c : ℚ,
      (rankVenues dist venues preferences targetBudgetPerPerson referenceLocation).filter
          (fun sv => decide (sv.score = c)) =
        (scoredList dist venues preferences targetBudgetPerPerson referenceLocation).filter
          (fun sv => decide (sv.score = c)) := by
  constructor
  · exact List.sorted_insertionSort scoreDescLE _
  · intro c
    set l := scoredList dist venues preferences targetBudgetPerPerson referenceLocation
      with hl
    set p : ScoredVenue → Bool := fun sv => decide (sv.score = c) with hp
    have hscore : ∀ a ∈ l.filter p, a.score = c := by
      intro a ha
      have := List.of_mem_filter ha
      rw [hp] at this
      exact of_decide_eq_true this
    have h1 : (l.filter p).Pairwise scoreDescLE := by
      apply List.pairwise_of_forall_mem_list
      intro a ha b hb
      show b.score ≤ a.score
      rw [hscore a ha, hscore b hb]
    have h3 : List.Sublist (l.filter p) (List.insertionSort scoreDescLE l) :=
      List.sublist_insertionSort h1 (List.filter_sublist l)
    have h4 : List.Sublist (l.filter p) ((List.insertionSort scoreDescLE l).filter p) := by
      have := List.Sublist.filter p h3
      rwa [List.filter_filter, (by funext a; rw [Bool.and_self] : (fun a => p a && p a) = p)]
        at this
    have h6 : ((List.insertionSort scoreDescLE l).filter p).length = (l.filter p).length := by
      rw [← List.countP_eq_length_filter, ← List.countP_eq_length_filter]
      exact (List.perm_insertionSort scoreDescLE l).countP_eq p
    exact (h4.eq_of_length h6.symm).symm

/-- The placeId-dedup filter produces pairwise-distinct placeIds, none of
them in the seen set. -/
theorem dedupByPlaceId_spec :
    ∀ (l : List Venue) (seen : List String),
      (dedupByPlaceId l seen).Pairwise (fun a b => a.placeId ≠ b.placeId) ∧
      ∀ v ∈ dedupByPlaceId l seen, v.placeId ∉ seen
  | [], seen => by simp [dedupByPlaceId]
  | v :: rest, seen => by
    by_cases hmem : v.placeId ∈ seen
    · simpa [dedupByPlaceId, hmem] using dedupByPlaceId_spec rest seen
    · obtain ⟨hpw, hnotin⟩ := dedupByPlaceId_spec rest (v.placeId :: seen)
      simp only [dedupByPlaceId, if_neg hmem]
      constructor
      · refine List.Pairwise.cons ?_ hpw
        intro u hu
        have := hnotin u hu
        simp only [List.mem_cons, not_or] at this
        exact fun h => this.1 h.symm
      · intro u hu
        rcases List.mem_cons.mp hu with rfl | hu'
        · exact hmem
        · have := hnotin u hu'
          simp only [List.mem_cons, not_or] at this
          exact this.2

/-- Each stop built by the plan loop carries exactly the venue it was
built from, in order. -/
theorem buildStops_map_venue (travelTimes : String → Option ℤ) (mode : String)
    (perPersonBudget : ℚ) (numStops : ℕ) :
    ∀ (vs : List Venue) (t : HHMM) (prev : Option String) (counts : String → ℕ),
      (buildStops travelTimes mode perPersonBudget numStops vs t prev counts).map
        (fun s => s.venue) = vs
  | [], _, _, _ => rfl
  | v :: rest, t, prev, counts => by
    simp [buildStops, buildStops_map_venue travelTimes mode perPersonBudget numStops rest]

/-- The per-category budget share is nonnegative for a nonnegative
per-person budget. -/
theorem categoryBudgetFor_nonneg {perPersonBudget : ℚ} (h : 0 ≤ perPersonBudget)
    (numStops : ℕ) (category : String) :
    0 ≤ categoryBudgetFor perPersonBudget numStops category := by
  unfold categoryBudgetFor
  split_ifs <;>
    first
      | exact div_nonneg h (Nat.cast_nonneg numStops)
      | exact mul_nonneg h (by norm_num)

/-- Every price-level multiplier is positive. -/
theorem priceMultiplier_pos (priceLevel : ℕ) : 0 < priceMultiplier priceLevel := by
  unfold priceMultiplier
  rcases priceLevel with _ | _ | _ | _ | _ | pl <;>
    simp [List.get?] <;> norm_num

/-- Every stop built by the plan loop has a well-ordered cost range when
the per-person budget is nonnegative. -/
theorem buildStops_cost_range (travelTimes : String → Option ℤ) (mode : String)
    {perPersonBudget : ℚ} (numStops : ℕ) (hppb : 0 ≤ perPersonBudget) :
    ∀ (vs : List Venue) (t : HHMM) (prev : Option String) (counts : String → ℕ),
      ∀ stop ∈ buildStops travelTimes mode perPersonBudget numStops vs t prev counts,
        stop.estimatedCostRange.1 ≤ stop.estimatedCostRange.2
  | [], _, _, _ => by simp [buildStops]
  | v :: rest, t, prev, counts => by
    intro stop hstop
    simp only [buildStops, List.mem_cons] at hstop
    rcases hstop with rfl | hstop
    · show jsRound (categoryBudgetFor perPersonBudget numStops v.category *
          priceMultiplier (v.priceLevel.getD 2) * 0.8) ≤
        jsRound (categoryBudgetFor perPersonBudget numStops v.category *
          priceMultiplier (v.priceLevel.getD 2) * 1.2)
      apply jsRound_mono
      have hbase : 0 ≤ categoryBudgetFor perPersonBudget numStops v.category *
          priceMultiplier (v.priceLevel.getD 2) :=
        mul_nonneg (categoryBudgetFor_nonneg hppb numStops v.category)
          (le_of_lt (priceMultiplier_pos _))
      nlinarith
    · exact buildStops_cost_range travelTimes mode numStops hppb rest _ _ _ stop hstop

/-- C7: in every plan built by `buildPlanFromVenues` (for a nonnegative
budget and positive party size, the domain the Budget schema allows), no
two stops share a placeId and every stop's estimated cost range has
low ≤ high. -/
theorem buildPlanFromVenues_valid (id title : String) (venues backupVenues : List Venue)
    (startTime : HHMM) (travelTimes : String → Option ℤ) (mode : String)
    (familyFriendly : Bool) (budget partySize : ℚ)
    (hb : 0 ≤ budget) (hp : 0 < partySize) :
    (buildPlanFromVenues id title venues backupVenues startTime travelTimes mode
        familyFriendly budget partySize).stops.Pairwise
      (fun a b => a.venue.placeId ≠ b.venue.placeId) ∧
    ∀ stop ∈ (buildPlanFromVenues id title venues backupVenues startTime travelTimes mode
        familyFriendly budget partySize).stops,
      stop.estimatedCostRange.1 ≤ stop.estimatedCostRange.2 := by
  have hppb : 0 ≤ budget / partySize := div_nonneg hb (le_of_lt hp)
  constructor
  · have hpw0 : (dedupByPlaceId venues []).Pairwise (fun a b => a.placeId ≠ b.placeId) :=
      (dedupByPlaceId_spec venues []).1
    have hpw : ((dedupByPlaceId venues []).insertionSort
        (categoryLE (categoryOrder familyFriendly))).Pairwise
          (fun a b => a.placeId ≠ b.placeId) := by
      refine (List.Perm.pairwise_iff ?_
        (List.perm_insertionSort (categoryLE (categoryOrder familyFriendly))
          (dedupByPlaceId venues []))).mpr hpw0
      exact fun h => h.symm
    have hmapv := buildStops_map_venue travelTimes mode (budget / partySize)
      (if ((dedupByPlaceId venues []).insertionSort
          (categoryLE (categoryOrder familyFriendly))).length = 0 then 3
        else ((dedupByPlaceId venues []).insertionSort
          (categoryLE (categoryOrder familyFriendly))).length)
      ((dedupByPlaceId venues []).insertionSort
        (categoryLE (categoryOrder familyFriendly)))
      startTime none (fun _ => 0)
    have : ((buildPlanFromVenues id title venues backupVenues startTime travelTimes mode
        familyFriendly budget partySize).stops.map (fun s => s.venue)).Pairwise
          (fun a b => a.placeId ≠ b.placeId) := by
      rw [show (buildPlanFromVenues id title venues backupVenues startTime travelTimes mode
          familyFriendly budget partySize).stops =
        buildStops travelTimes mode (budget / partySize)
          (if ((dedupByPlaceId venues []).insertionSort
              (categoryLE (categoryOrder familyFriendly))).length = 0 then 3
            else ((dedupByPlaceId venues []).insertionSort
              (categoryLE (categoryOrder familyFriendly))).length)
          ((dedupByPlaceId venues []).insertionSort
            (categoryLE (categoryOrder familyFriendly)))
          startTime none (fun _ => 0) from rfl, hmapv]
      exact hpw
    exact (@List.pairwise_map Stop Venue (fun s => s.venue)
      (fun a b => a.placeId ≠ b.placeId) _).mp this
  · intro stop hstop
    exact buildStops_cost_range travelTimes mode _ hppb _ _ _ _ stop hstop

/-- A second witness venue sharing nothing with `witnessVenue`. -/
def witnessVenueDinner : Venue :=
  { name := "Trattoria"
    placeId := "w2"
    mapsUrl := ""
    address := ""
    location := ⟨0, 0⟩
    priceLevel := some 1
    rating := none
    reviewCount := some 40
    category := "dinner" }

/-- C7 witness: the plan invariants at a concrete two-venue plan. -/
theorem buildPlanFromVenues_valid_witness :
    (buildPlanFromVenues "A" "Best fit" [witnessVenueDinner, witnessVenue] []
        ⟨18, 0⟩ (fun _ => none) "standard" false 100 2).stops.Pairwise
      (fun a b => a.venue.placeId ≠ b.venue.placeId) ∧
    ∀ stop ∈ (buildPlanFromVenues "A" "Best fit" [witnessVenueDinner, witnessVenue] []
        ⟨18, 0⟩ (fun _ => none) "standard" false 100 2).stops,
      stop.estimatedCostRange.1 ≤ stop.estimatedCostRange.2 :=
  buildPlanFromVenues_valid "A" "Best fit" [witnessVenueDinner, witnessVenue] []
    ⟨18, 0⟩ (fun _ => none) "standard" false 100 2 (by norm_num) (by norm_num)

/-- Under distinct placeIds, the absorption loop returns exactly the
still-unassigned venues within range, in scan order, and marks exactly
their placeIds as assigned. -/
theorem absorbNearby_spec (dist : Location → Location → ℚ) (r : ℚ) (seed : Venue) :
    ∀ (l : List Venue) (assigned : List String), (l.map Venue.placeId).Nodup →
      absorbNearby dist r seed l assigned =
        (l.filter (fun o => decide (o.placeId ∉ assigned) &&
            decide (dist seed.location o.location ≤ r)),
          ((l.filter (fun o => decide (o.placeId ∉ assigned) &&
            decide (dist seed.location o.location ≤ r))).map Venue.placeId).reverse ++ assigned)
  | [], assigned, _ => by simp [absorbNearby]
  | other :: rest, assigned, hnd => by
    rw [show (other :: rest).map Venue.placeId = other.placeId :: rest.map Venue.placeId
        from rfl, List.nodup_cons] at hnd
    obtain ⟨hnotin, hndrest⟩ := hnd
    by_cases h1 : other.placeId ∈ assigned
    · have hpred : (decide (other.placeId ∉ assigned) &&
          decide (dist seed.location other.location ≤ r)) = false := by simp [h1]
      simp only [absorbNearby, if_pos h1, List.filter_cons, hpred]
      simpa using absorbNearby_spec dist r seed rest assigned hndrest
    · by_cases h2 : dist seed.location other.location ≤ r
      · simp only [absorbNearby, if_neg h1, if_pos h2]
        rw [absorbNearby_spec dist r seed rest (other.placeId :: assigned) hndrest]
        have hfc : rest.filter (fun o => decide (o.placeId ∉ other.placeId :: assigned) &&
              decide (dist seed.location o.location ≤ r)) =
            rest.filter (fun o => decide (o.placeId ∉ assigned) &&
              decide (dist seed.location o.location ≤ r)) := by
          apply List.filter_congr
          intro o ho
          have hne : o.placeId ≠ other.placeId :=
            fun he => hnotin (he ▸ List.mem_map_of_mem Venue.placeId ho)
          have hiff : (o.placeId ∉ other.placeId :: assigned) ↔ (o.placeId ∉ assigned) := by
            simp [List.mem_cons, hne]
          rw [decide_eq_decide.mpr hiff]
        have hpt : (decide (other.placeId ∉ assigned) &&
            decide (dist seed.location other.location ≤ r)) = true := by simp [h1, h2]
        rw [hfc]
        simp [List.filter_cons, h1, h2, List.reverse_cons, List.append_assoc]
      · simp only [absorbNearby, if_neg h1, if_neg h2]
        rw [absorbNearby_spec dist r seed rest assigned hndrest]
        simp [List.filter_cons, h2]

/-- The outer clustering loop: its clusters, concatenated, are a
permutation of the still-unassigned venues, provided the already-scanned
prefix is exactly what has been assigned so far. -/
theorem clusterOuter_flatten_perm (dist : Location → Location → ℚ) (r : ℚ)
    (all : List Venue) (hnd : (all.map Venue.placeId).Nodup) :
    ∀ (pending : List Venue) (assigned : List String) (pre : List Venue),
      all = pre ++ pending → (∀ v ∈ pre, v.placeId ∈ assigned) →
      ((clusterOuter dist r all pending assigned).flatten).Perm
        (all.filter fun v => decide (v.placeId ∉ assigned)) := by
  have hinj := List.inj_on_of_nodup_map hnd
  intro pending
  induction pending with
  | nil =>
    intro assigned pre hall hpre
    have hfil : (all.filter fun v => decide (v.placeId ∉ assigned)) = [] := by
      apply List.filter_eq_nil_iff.mpr
      intro a ha
      have : a ∈ pre := by rwa [hall, List.append_nil] at ha
      simp [hpre a this]
    have hnilres : clusterOuter dist r all [] assigned = [] := rfl
    rw [hnilres, hfil]
    exact List.Perm.nil
  | cons v pending' ih =>
    intro assigned pre hall hpre
    have hmapsplit : all.map Venue.placeId =
        pre.map Venue.placeId ++ v.placeId :: pending'.map Venue.placeId := by
      rw [hall]
      simp
    have hvuniq : v.placeId ∉ pre.map Venue.placeId ++ pending'.map Venue.placeId := by
      have h1 := hmapsplit ▸ hnd
      exact (List.nodup_cons.mp (List.nodup_middle.mp h1)).1
    by_cases hv : v.placeId ∈ assigned
    · simp only [clusterOuter, if_pos hv]
      refine ih assigned (pre ++ [v]) ?_ ?_
      · rw [hall]
        simp
      · intro u hu
        rcases List.mem_append.mp hu with hu' | hu'
        · exact hpre u hu'
        · rw [List.mem_singleton.mp hu']
          exact hv
    · simp only [clusterOuter, if_neg hv]
      rw [absorbNearby_spec dist r v all (v.placeId :: assigned) hnd]
      set p1 : Venue → Bool := fun o => decide (o.placeId ∉ v.placeId :: assigned) with hp1
      set nearb : Venue → Bool := fun o => decide (dist v.location o.location ≤ r) with hnearb
      set cl : List Venue := all.filter (fun o => p1 o && nearb o) with hcl
      set asg2 : List String := (cl.map Venue.placeId).reverse ++ v.placeId :: assigned
        with hasg2
      have hIH : ((clusterOuter dist r all pending' asg2).flatten).Perm
          (all.filter fun o => decide (o.placeId ∉ asg2)) := by
        refine ih asg2 (pre ++ [v]) ?_ ?_
        · rw [hall]
          simp
        · intro u hu
          rcases List.mem_append.mp hu with hu' | hu'
          · exact List.mem_append.mpr (Or.inr (List.mem_cons.mpr (Or.inr (hpre u hu'))))
          · rw [List.mem_singleton.mp hu']
            exact List.mem_append.mpr (Or.inr (List.mem_cons.mpr (Or.inl rfl)))
      have stepA : (all.filter fun o => decide (o.placeId ∉ asg2)) =
          all.filter (fun o => p1 o && !(nearb o)) := by
        apply List.filter_congr
        intro o ho
        by_cases hnear : dist v.location o.location ≤ r
        · have hnearb' : nearb o = true := by simp [hnearb, hnear]
          by_cases hA : o.placeId ∈ v.placeId :: assigned
          · have hin : o.placeId ∈ asg2 := List.mem_append.mpr (Or.inr hA)
            have hL : decide (o.placeId ∉ asg2) = false := decide_eq_false (not_not_intro hin)
            have hR : p1 o = false := by
              rw [hp1]
              exact decide_eq_false (not_not_intro hA)
            rw [hL, hR, Bool.false_and]
          · have hocl : o ∈ cl := by
              rw [hcl]
              refine List.mem_filter.mpr ⟨ho, ?_⟩
              rw [List.mem_cons, not_or] at hA
              simp [hp1, hnearb, hnear, hA.1, hA.2]
            have hin : o.placeId ∈ asg2 := List.mem_append.mpr
              (Or.inl (List.mem_reverse.mpr (List.mem_map_of_mem Venue.placeId hocl)))
            have hL : decide (o.placeId ∉ asg2) = false := decide_eq_false (not_not_intro hin)
            rw [hL, hnearb', Bool.not_true, Bool.and_false]
        · have hnotcl : o.placeId ∉ cl.map Venue.placeId := by
            intro hmem
            obtain ⟨o', ho', he⟩ := List.mem_map.mp hmem
            have ho'all : o' ∈ all := (List.mem_filter.mp (hcl ▸ ho')).1
            have heq : o' = o := hinj ho'all ho he
            have := (List.mem_filter.mp (hcl ▸ ho')).2
            rw [heq] at this
            simp only [hnearb, Bool.and_eq_true, decide_eq_true_eq] at this
            exact hnear this.2
          have hiff : o.placeId ∈ asg2 ↔ o.placeId ∈ v.placeId :: assigned := by
            simp [hasg2, List.mem_append, List.mem_reverse, hnotcl]
          have hnb : nearb o = false := by simp [hnearb, hnear]
          simp only [hnb, Bool.not_false, Bool.and_true, hp1]
          exact decide_eq_decide.mpr (not_congr hiff)
      have stepB : (cl ++ all.filter (fun o => p1 o && !(nearb o))).Perm
          (all.filter p1) := by
        have hsplit := List.filter_append_perm nearb (all.filter p1)
        rw [List.filter_filter, List.filter_filter] at hsplit
        have hc1 : all.filter (fun o => nearb o && p1 o) = cl := by
          rw [hcl]
          exact List.filter_congr fun o _ => Bool.and_comm _ _
        have hc2 : all.filter (fun o => (!nearb o) && p1 o) =
            all.filter (fun o => p1 o && !(nearb o)) :=
          List.filter_congr fun o _ => Bool.and_comm _ _
        rw [hc1, hc2] at hsplit
        exact hsplit
      have stepC : (v :: all.filter p1).Perm
          (all.filter fun o => decide (o.placeId ∉ assigned)) := by
        have hvin : v.placeId ∉ pre.map Venue.placeId ∧
            v.placeId ∉ pending'.map Venue.placeId := by
          constructor <;> intro hx <;>
            exact hvuniq (List.mem_append.mpr (by first | exact Or.inl hx | exact Or.inr hx))
        have hprefc : ∀ (l : List Venue), v.placeId ∉ l.map Venue.placeId →
            l.filter p1 = l.filter (fun o => decide (o.placeId ∉ assigned)) := by
          intro l hvl
          apply List.filter_congr
          intro o ho
          have hne : o.placeId ≠ v.placeId :=
            fun he => hvl (he ▸ List.mem_map_of_mem Venue.placeId ho)
          rw [hp1]
          exact decide_eq_decide.mpr (by simp [List.mem_cons, hne])
        have hp1v : p1 v = false := by simp [hp1]
        have hmemv : (decide (v.placeId ∉ assigned)) = true := by simp [hv]
        rw [hall, List.filter_append, List.filter_append, List.filter_cons,
          List.filter_cons, hp1v, hmemv]
        simp only [Bool.false_eq_true, if_false, if_true]
        rw [hprefc pre hvin.1, hprefc pending' hvin.2]
        exact (List.perm_middle).symm
      have hflat : ((v :: cl) :: clusterOuter dist r all pending' asg2).flatten =
          v :: (cl ++ (clusterOuter dist r all pending' asg2).flatten) := by
        simp [List.flatten_cons]
      rw [hflat]
      have hmid : (v :: (cl ++ (clusterOuter dist r all pending' asg2).flatten)).Perm
          (v :: (cl ++ all.filter (fun o => p1 o && !(nearb o)))) := by
        refine List.Perm.cons v (List.Perm.append_left cl ?_)
        rw [← stepA]
        exact hIH
      exact hmid.trans ((List.Perm.cons v stepB).trans stepC)

/-- C5: for every venue list with distinct placeIds (the data model
declares placeId unique) and every radius, the clusters returned by
`clusterByProximity` concatenate to a permutation of the input — every
input venue lies in exactly one cluster and clusters contain nothing
else. -/
theorem clusterByProximity_partition (dist : Location → Location → ℚ)
    (venues : List Venue) (maxDistanceMeters : ℚ)
    (hnd : (venues.map Venue.placeId).Nodup) :
    ((clusterByProximity dist venues maxDistanceMeters).flatten).Perm venues := by
  by_cases hempty : venues.length = 0
  · rw [List.length_eq_zero] at hempty
    subst hempty
    simp [clusterByProximity]
  · simp only [clusterByProximity, if_neg hempty]
    have h2 := clusterOuter_flatten_perm dist maxDistanceMeters venues hnd venues [] []
      rfl (by simp)
    have h3 : venues.filter (fun v => decide (v.placeId ∉ ([] : List String))) = venues :=
      List.filter_eq_self.mpr (by simp)
    rw [h3] at h2
    exact ((List.perm_insertionSort lengthDescLE _).flatten).trans h2

/-- A third witness venue, far from the others. -/
def witnessVenueFar : Venue :=
  { name := "Far Bar"
    placeId := "w3"
    mapsUrl := ""
    address := ""
    location := ⟨1, 1⟩
    priceLevel := none
    rating := none
    reviewCount := none
    category := "finish" }

/-- C5 witness: the partition theorem at a concrete three-venue list with
distinct placeIds. -/
theorem clusterByProximity_partition_witness :
    ((clusterByProximity (fun a b => |a.lat - b.lat| + |a.lng - b.lng|)
        [witnessVenue, witnessVenueDinner, witnessVenueFar] 1500).flatten).Perm
      [witnessVenue, witnessVenueDinner, witnessVenueFar] :=
  clusterByProximity_partition (fun a b => |a.lat - b.lat| + |a.lng - b.lng|)
    [witnessVenue, witnessVenueDinner, witnessVenueFar] 1500
    (by with_unfolding_all decide)

/-- `rankVenues` returns one scored venue per input venue. -/
theorem rankVenues_length (dist : Location → Location → ℚ) (venues : List Venue)
    (preferences : Preferences) (targetBudgetPerPerson : ℚ)
    (referenceLocation : Option Location) :
    (rankVenues dist venues preferences targetBudgetPerPerson referenceLocation).length =
      venues.length := by
  rw [rankVenues, List.length_insertionSort]
  simp [scoredList]

/-- Ranking a one-venue pool yields that venue alone, whatever the
reference location. -/
theorem rankVenues_singleton (dist : Location → Location → ℚ) (v : Venue)
    (preferences : Preferences) (targetBudgetPerPerson : ℚ)
    (referenceLocation : Option Location) :
    rankVenues dist [v] preferences targetBudgetPerPerson referenceLocation =
      [scoreVenue dist (referenceLocation.getD (calculateCentroid [v])) preferences
        targetBudgetPerPerson v] := rfl

/-- A non-empty pool yields a non-empty ranking. -/
theorem rankVenues_ne_nil (dist : Location → Location → ℚ) (venues : List Venue)
    (preferences : Preferences) (targetBudgetPerPerson : ℚ)
    (referenceLocation : Option Location) (h : venues ≠ []) :
    rankVenues dist venues preferences targetBudgetPerPerson referenceLocation ≠ [] := by
  intro hh
  apply h
  have hlen := rankVenues_length dist venues preferences targetBudgetPerPerson
    referenceLocation
  rw [hh] at hlen
  exact List.eq_nil_of_length_eq_zero hlen.symm

/-- The venue inside a scored venue is the venue that was scored. -/
theorem scoreVenue_venue (dist : Location → Location → ℚ) (reference : Location)
    (preferences : Preferences) (targetBudgetPerPerson : ℚ) (venue : Venue) :
    (scoreVenue dist reference preferences targetBudgetPerPerson venue).venue = venue := rfl

/-- C1: with all three pools non-empty, `selectBestVenues` selects the
rank-1 dinner of the dinner ranking with ranks 2–4 as dinner backups, and
the activity and finish picks (primary and ranks 2–3 backups) equal the
result of re-ranking those pools with the selected dinner's location as
the proximity reference.  (When a pool has exactly one venue the code
skips the re-ranking call, but the re-ranked result is that same single
venue, so the equality still holds.) -/
theorem selectBestVenues_anchor_rerank (dist : Location → Location → ℚ)
    (pools : CategoryPools) (preferences : Preferences)
    (budgetPerCategory : CategoryBudgets)
    (ha : pools.activity ≠ []) (hd : pools.dinner ≠ []) (hf : pools.finish ≠ [])
    (dsc : ScoredVenue)
    (hdsc : (rankVenues dist pools.dinner preferences budgetPerCategory.dinner none).head? =
      some dsc) :
    (selectBestVenues dist pools preferences budgetPerCategory).selected.dinner =
      some dsc.venue ∧
    (selectBestVenues dist pools preferences budgetPerCategory).backups.dinner =
      (((rankVenues dist pools.dinner preferences budgetPerCategory.dinner none).drop 1).take
        3).map (fun s => s.venue) ∧
    (selectBestVenues dist pools preferences budgetPerCategory).selected.activity =
      ((rankVenues dist pools.activity preferences budgetPerCategory.activity
        (some dsc.venue.location)).head?).map (fun s => s.venue) ∧
    (selectBestVenues dist pools preferences budgetPerCategory).backups.activity =
      (((rankVenues dist pools.activity preferences budgetPerCategory.activity
        (some dsc.venue.location)).drop 1).take 2).map (fun s => s.venue) ∧
    (selectBestVenues dist pools preferences budgetPerCategory).selected.finish =
      ((rankVenues dist pools.finish preferences budgetPerCategory.finish
        (some dsc.venue.location)).head?).map (fun s => s.venue) ∧
    (selectBestVenues dist pools preferences budgetPerCategory).backups.finish =
      (((rankVenues dist pools.finish preferences budgetPerCategory.finish
        (some dsc.venue.location)).drop 1).take 2).map (fun s => s.venue) := by
  simp only [selectBestVenues, hdsc]
  by_cases hA : (rankVenues dist pools.activity preferences budgetPerCategory.activity
      none).length > 1
  <;> by_cases hF : (rankVenues dist pools.finish preferences budgetPerCategory.finish
      none).length > 1
  all_goals rw [rankVenues_length] at hA hF
  all_goals simp only [rankVenues_length, hA, hF, gt_iff_lt, if_true, if_false]
  · rcases hha : (rankVenues dist pools.activity preferences budgetPerCategory.activity
        (some dsc.venue.location)).head? with _ | a0
    · exact absurd (List.head?_eq_none_iff.mp hha)
        (rankVenues_ne_nil dist pools.activity preferences budgetPerCategory.activity
          (some dsc.venue.location) ha)
    rcases hhf : (rankVenues dist pools.finish preferences budgetPerCategory.finish
        (some dsc.venue.location)).head? with _ | f0
    · exact absurd (List.head?_eq_none_iff.mp hhf)
        (rankVenues_ne_nil dist pools.finish preferences budgetPerCategory.finish
          (some dsc.venue.location) hf)
    simp [hha, hhf]
  · rcases hha : (rankVenues dist pools.activity preferences budgetPerCategory.activity
        (some dsc.venue.location)).head? with _ | a0
    · exact absurd (List.head?_eq_none_iff.mp hha)
        (rankVenues_ne_nil dist pools.activity preferences budgetPerCategory.activity
          (some dsc.venue.location) ha)
    have hflen : pools.finish.length = 1 := by
      have := List.length_pos.mpr hf
      omega
    obtain ⟨v, hv⟩ := List.length_eq_one.mp hflen
    simp [hha, hv, rankVenues_singleton, scoreVenue_venue]
  · have halen : pools.activity.length = 1 := by
      have := List.length_pos.mpr ha
      omega
    obtain ⟨v, hv⟩ := List.length_eq_one.mp halen
    rcases hhf : (rankVenues dist pools.finish preferences budgetPerCategory.finish
        (some dsc.venue.location)).head? with _ | f0
    · exact absurd (List.head?_eq_none_iff.mp hhf)
        (rankVenues_ne_nil dist pools.finish preferences budgetPerCategory.finish
          (some dsc.venue.location) hf)
    simp [hhf, hv, rankVenues_singleton, scoreVenue_venue]
  · have halen : pools.activity.length = 1 := by
      have := List.length_pos.mpr ha
      omega
    obtain ⟨v, hv⟩ := List.length_eq_one.mp halen
    have hflen : pools.finish.length = 1 := by
      have := List.length_pos.mpr hf
      omega
    obtain ⟨u, hu⟩ := List.length_eq_one.mp hflen
    simp [hv, hu, rankVenues_singleton, scoreVenue_venue]

/-- Concrete pools for the C1 witness. -/
def witnessPools : CategoryPools :=
  { activity := [witnessVenue]
    dinner := [witnessVenueDinner]
    finish := [witnessVenueFar] }

/-- Concrete per-category budgets for the C1 witness. -/
def witnessBudgets : CategoryBudgets :=
  { activity := 30, dinner := 45, finish := 15 }

/-- The scored dinner at the head of the witness dinner ranking. -/
def witnessDinnerScored : ScoredVenue :=
  scoreVenue witnessDist (calculateCentroid [witnessVenueDinner]) witnessPrefs 45
    witnessVenueDinner

/-- C1 witness: the anchor/re-rank theorem applied to concrete one-venue
pools. -/
theorem selectBestVenues_anchor_rerank_witness :
    (selectBestVenues witnessDist witnessPools witnessPrefs witnessBudgets).selected.dinner =
      some witnessDinnerScored.venue ∧
    (selectBestVenues witnessDist witnessPools witnessPrefs witnessBudgets).backups.dinner =
      (((rankVenues witnessDist witnessPools.dinner witnessPrefs witnessBudgets.dinner
        none).drop 1).take 3).map (fun s => s.venue) ∧
    (selectBestVenues witnessDist witnessPools witnessPrefs witnessBudgets).selected.activity =
      ((rankVenues witnessDist witnessPools.activity witnessPrefs witnessBudgets.activity
        (some witnessDinnerScored.venue.location)).head?).map (fun s => s.venue) ∧
    (selectBestVenues witnessDist witnessPools witnessPrefs witnessBudgets).backups.activity =
      (((rankVenues witnessDist witnessPools.activity witnessPrefs witnessBudgets.activity
        (some witnessDinnerScored.venue.location)).drop 1).take 2).map (fun s => s.venue) ∧
    (selectBestVenues witnessDist witnessPools witnessPrefs witnessBudgets).selected.finish =
      ((rankVenues witnessDist witnessPools.finish witnessPrefs witnessBudgets.finish
        (some witnessDinnerScored.venue.location)).head?).map (fun s => s.venue) ∧
    (selectBestVenues witnessDist witnessPools witnessPrefs witnessBudgets).backups.finish =
      (((rankVenues witnessDist witnessPools.finish witnessPrefs witnessBudgets.finish
        (some witnessDinnerScored.venue.location)).drop 1).take 2).map (fun s => s.venue) :=
  selectBestVenues_anchor_rerank witnessDist witnessPools witnessPrefs witnessBudgets
    (by with_unfolding_all decide) (by with_unfolding_all decide)
    (by with_unfolding_all decide) witnessDinnerScored (by with_unfolding_all decide)

end Vibeday
